import Mathlib

/-! PodVibe: rating aggregation, ranking and submission.

A shallow embedding of the rating logic of `src/App.jsx`:

* the ratings listener (`onSnapshot` callback, lines 91-106) that folds the
  documents of the ratings collection into the `allRatings` object;
* `fetchHomepageContent` (lines 148-230): the `allPodcastRatings` table, the
  three section rankings and the `slice(0, 100)` cap;
* `handleRating` (lines 336-369) and `handleReviewSubmit` (lines 371-396);
* the metadata fetch and filter of `fetchHomepageContent` (lines 176-229),
  `fetchMyRatings` (lines 232-277), the content effect (lines 138-146) with the
  feed callbacks, and `renderStars` (lines 400-413).

Modelling conventions.

* JavaScript numbers are modelled by exact rationals (`ℚ`) where the source
  divides, and by integers elsewhere; floating-point rounding is outside the
  model.
* A plain JavaScript object is an association list of its own properties in
  creation order; podcast ids are catalog identifiers, so property names
  inherited from `Object.prototype` are outside the model.
* `Array.prototype.sort` is stable; with a consistent comparator its result is
  the unique stable sorted arrangement, computed here by insertion sort.
* Times are integers, milliseconds since the epoch; a document without a
  usable `timestamp` carries `none`.
-/

namespace PodVibe

/-! ## Data model -/

/-- A document of the ratings collection: the document id together with the
fields the listener destructures from `doc.data()`. -/
structure RatingDoc where
  id : String
  podcastId : String
  userId : String
  rating : Int
  timestamp : Option Int
  deriving DecidableEq, Repr

/-- One `{ rating, timestamp }` element pushed onto an aggregate's `ratings`
array. -/
structure RatingStamp where
  rating : Int
  timestamp : Option Int
  deriving DecidableEq, Repr

/-- The value stored under a podcast id in `allRatings`
(`{ totalRating, count, userRated, recentRatings, ratings }`). -/
structure Aggregate where
  totalRating : Int
  count : Nat
  userRated : Bool
  recentRatings : Nat
  ratings : List RatingStamp
  deriving DecidableEq, Repr

/-- The `allRatings` / `ratings` object: own properties in creation order. -/
abbrev RatingsMap := List (String × Aggregate)

/-- Property read `obj[key]` (`none` models `undefined`). -/
def getProp (m : RatingsMap) (key : String) : Option Aggregate :=
  match m with
  | [] => none
  | (k, v) :: rest => if k = key then some v else getProp rest key

/-- The names of the own properties of the object. -/
def ownKeys (m : RatingsMap) : List String := m.map Prod.fst

/-! ## The ratings listener (lines 91-106) -/

/-- The object literal of line 97. -/
def freshAggregate : Aggregate :=
  { totalRating := 0, count := 0, userRated := false, recentRatings := 0, ratings := [] }

/-- Lines 99-104 applied to the aggregate of the document's podcast. -/
def addRating (uid : String) (d : RatingDoc) (a : Aggregate) : Aggregate :=
  { totalRating := a.totalRating + d.rating
    count := a.count + 1
    userRated := if d.userId = uid then true else a.userRated
    recentRatings := a.recentRatings
    ratings := a.ratings ++ [{ rating := d.rating, timestamp := d.timestamp }] }

/-- In-place update of the property `key` of the object. -/
def updateProp (m : RatingsMap) (key : String) (f : Aggregate → Aggregate) : RatingsMap :=
  m.map (fun kv => if kv.1 = key then (kv.1, f kv.2) else kv)

/-- The body of the `snapshot.forEach` callback (lines 94-104). -/
def forEachDoc (uid : String) (allRatings : RatingsMap) (d : RatingDoc) : RatingsMap :=
  let initialised :=
    match getProp allRatings d.podcastId with
    | none => allRatings ++ [(d.podcastId, freshAggregate)]
    | some _ => allRatings
  updateProp initialised d.podcastId (addRating uid d)

/-- The success callback of `onSnapshot`: the object handed to `setRatings`
for the documents of the snapshot, in snapshot order, and the signed-in
user `uid`. -/
def ratingsListener (uid : String) (snapshot : List RatingDoc) : RatingsMap :=
  snapshot.foldl (forEachDoc uid) []

/-! ## `Object.entries` -/

/-- The numeric value of a string of decimal digits. -/
def digitsValue (cs : List Char) : Nat :=
  cs.foldl (fun acc c => 10 * acc + (c.toNat - 48)) 0

/-- A property name is an array index when it is the canonical decimal form
of an integer below `2^32 - 1`. -/
def arrayIndex (key : String) : Option Nat :=
  let cs := key.data
  if cs ≠ [] ∧ cs.all Char.isDigit ∧ (cs.length = 1 ∨ cs.head? ≠ some '0')
      ∧ digitsValue cs < 4294967295 then
    some (digitsValue cs)
  else none

/-- Whether the property name is an array index. -/
def isIndexKey (kv : String × Aggregate) : Bool := (arrayIndex kv.1).isSome

/-- Ascending numeric order on array-index property names. -/
def indexLE (a b : String × Aggregate) : Prop :=
  (arrayIndex a.1).getD 0 ≤ (arrayIndex b.1).getD 0

instance : DecidableRel indexLE := fun a b =>
  inferInstanceAs (Decidable ((arrayIndex a.1).getD 0 ≤ (arrayIndex b.1).getD 0))

/-- The result of `Object.entries(obj)`: array-index keys in ascending numeric order, then
the other keys in creation order. -/
def objectEntries (m : RatingsMap) : List (String × Aggregate) :=
  (m.filter isIndexKey).insertionSort indexLE ++ m.filter (fun kv => !isIndexKey kv)

/-! ## `fetchHomepageContent`: the rating table (lines 154-159) -/

/-- Seven days in milliseconds: `7 * 24 * 60 * 60 * 1000`. -/
def sevenDays : Int := 7 * 24 * 60 * 60 * 1000

/-- The predicate of the `data.ratings.filter` of line 158, at the clock value
`now`; a missing timestamp makes the difference `NaN`, which is not below
the bound. -/
def isRecent (now : Int) (r : RatingStamp) : Bool :=
  match r.timestamp with
  | some t => decide (now - t < sevenDays)
  | none => false

/-- An element of `allPodcastRatings`. -/
structure PodcastRating where
  podcastId : String
  average : ℚ
  count : Nat
  recentCount : Nat
  deriving DecidableEq

/-- The `map` callback of lines 154-159. -/
def toPodcastRating (now : Int) (kv : String × Aggregate) : PodcastRating :=
  { podcastId := kv.1
    average := (kv.2.totalRating : ℚ) / (kv.2.count : ℚ)
    count := kv.2.count
    recentCount := (kv.2.ratings.filter (isRecent now)).length }

/-- The table `allPodcastRatings` of lines 154-159. -/
def allPodcastRatings (ratings : RatingsMap) (now : Int) : List PodcastRating :=
  (objectEntries ratings).map (toPodcastRating now)

/-! ## `fetchHomepageContent`: the section rankings (lines 161-174) -/

/-- The order a comparator induces: `a` may stand before `b` when
`cmp a b ≤ 0`. -/
def cmpLE {α : Type} (cmp : α → α → ℚ) (a b : α) : Prop := cmp a b ≤ 0

instance {α : Type} (cmp : α → α → ℚ) : DecidableRel (cmpLE cmp) := fun a b =>
  inferInstanceAs (Decidable (cmp a b ≤ 0))

/-- The method `Array.prototype.sort(cmp)`, a stable sort. -/
def jsSort {α : Type} (cmp : α → α → ℚ) (l : List α) : List α :=
  l.insertionSort (cmpLE cmp)

/-- The comparator `(a, b) => b.average - a.average`. -/
def byAverageDesc (a b : PodcastRating) : ℚ := b.average - a.average

/-- The comparator `(a, b) => b.recentCount - a.recentCount`. -/
def byRecentCountDesc (a b : PodcastRating) : ℚ :=
  (b.recentCount : ℚ) - (a.recentCount : ℚ)

/-- The filter of the hidden-gems branch (line 172). -/
def isHiddenGem (p : PodcastRating) : Bool :=
  decide (p.average ≥ 4.5) && decide (p.count > 0) && decide (p.count ≤ 10)

/-- The value of `filteredPodcastIds` after lines 161-174, for the section
name `sect`. -/
def filteredPodcastIds (sect : String) (ratings : RatingsMap) (now : Int) :
    List PodcastRating :=
  if sect = "top-rated" then
    jsSort byAverageDesc ((allPodcastRatings ratings now).filter (fun p => decide (p.count > 0)))
  else if sect = "trending" then
    jsSort byRecentCountDesc
      ((allPodcastRatings ratings now).filter (fun p => decide (p.recentCount > 0)))
  else if sect = "hidden-gems" then
    jsSort byAverageDesc ((allPodcastRatings ratings now).filter isHiddenGem)
  else []

/-- The podcast ids of a ranking, in order. -/
def rankingIds (l : List PodcastRating) : List String := l.map PodcastRating.podcastId

/-- The ids passed to the per-podcast metadata fetch (lines 178-193):
`filteredPodcastIds.slice(0, 100)` when the ranking is non-empty; an empty
ranking takes the fallback branch, which fetches no podcast by id. -/
def fetchTargets (ranking : List PodcastRating) : List String :=
  if ranking.length > 0 then rankingIds (ranking.take 100) else []

/-! ## Application state and the backend collections -/

/-- The metadata of a podcast as returned by the catalog, restricted to the
fields the application reads when filtering. -/
structure Podcast where
  id : String
  genres : Option (List String)
  language : String
  deriving DecidableEq, Repr

/-- The part of the component state (`useState` cells) the rating logic reads
or writes. `db` records whether a Firestore handle has been set. The cells
with a default carry their `useState` initial value. -/
structure AppState where
  userId : Option String
  db : Bool
  error : Option String
  ratings : RatingsMap
  podcasts : List Podcast
  loading : Bool
  showRatingsModal : Bool
  myRatings : List Podcast := []
  selectedCategory : String := "All"
  selectedLanguage : String := "en"
  currentView : String := "home"
  currentHomepageSection : String := "top-rated"
  isAuthReady : Bool := false
  deriving DecidableEq, Repr

/-- A document of the reviews collection. -/
structure ReviewDoc where
  id : String
  podcastId : String
  userId : String
  reviewText : String
  timestamp : Int
  deriving DecidableEq, Repr

/-- The two Firestore collections the application writes to. -/
structure Firestore where
  ratings : List RatingDoc
  reviews : List ReviewDoc
  deriving DecidableEq, Repr

/-- What the environment supplies to one handler call: the clock value of
`new Date()`, the id `addDoc` assigns, and whether the read (`getDocs`) and
the write (`updateDoc` / `addDoc`) resolve or reject. -/
structure CallEnv where
  now : Int
  newDocId : String
  readOk : Bool
  writeOk : Bool
  deriving DecidableEq, Repr

/-- The guard `!userId || !db` negated: the user id when `userId` is truthy
(neither `null` nor the empty string) and a database handle is set. -/
def authenticated (st : AppState) : Option String :=
  match st.userId with
  | some u => if u ≠ "" ∧ st.db = true then some u else none
  | none => none

/-! ## `handleRating` (lines 336-369) -/

/-- The query of line 346: documents with `podcastId == id` and
`userId == userId`. -/
def queryRatings (docs : List RatingDoc) (id userId : String) : List RatingDoc :=
  docs.filter (fun d => decide (d.podcastId = id) && decide (d.userId = userId))

/-- The call `updateDoc(ratingDocRef, { rating: ratingValue })`: only the `rating`
field of the referenced document is written. -/
def updateRating (docs : List RatingDoc) (docId : String) (ratingValue : Int) :
    List RatingDoc :=
  docs.map (fun d => if d.id = docId then { d with rating := ratingValue } else d)

/-- The object `newRatingData` of lines 357-362, stored under the id `addDoc`
assigns. -/
def newRatingData (env : CallEnv) (id userId : String) (ratingValue : Int) : RatingDoc :=
  { id := env.newDocId, podcastId := id, userId := userId, rating := ratingValue,
    timestamp := some env.now }

/-- The handler `handleRating(id, ratingValue, type)`: the state and the collections
after the call. -/
def handleRating (st : AppState) (fs : Firestore) (env : CallEnv)
    (id : String) (ratingValue : Int) (_type : String) : AppState × Firestore :=
  match authenticated st with
  | none => ({ st with error := some "You must be authenticated to submit a rating." }, fs)
  | some userId =>
    if env.readOk = false then
      ({ st with error := some "Failed to submit rating. Please try again." }, fs)
    else
      match (queryRatings fs.ratings id userId).head? with
      | some existingRatingDoc =>
        if env.writeOk = false then
          ({ st with error := some "Failed to submit rating. Please try again." }, fs)
        else
          (st, { fs with ratings := updateRating fs.ratings existingRatingDoc.id ratingValue })
      | none =>
        if env.writeOk = false then
          ({ st with error := some "Failed to submit rating. Please try again." }, fs)
        else
          (st, { fs with ratings := fs.ratings ++ [newRatingData env id userId ratingValue] })

/-- The values `renderStars` passes as `ratingValue`: the loop index `i` of
`for (let i = 1; i <= 5; i++)` (lines 407-421). -/
def starValues : List Int := [1, 2, 3, 4, 5]

/-! ## `handleReviewSubmit` (lines 371-396) -/

/-- The characters `String.prototype.trim` removes: ECMAScript white space and
line terminators. -/
def isTrimmed (c : Char) : Bool :=
  let n := c.toNat
  n = 9 || n = 10 || n = 11 || n = 12 || n = 13 || n = 32 || n = 160 || n = 5760
    || (8192 ≤ n && n ≤ 8202) || n = 8232 || n = 8233 || n = 8239 || n = 8287
    || n = 12288 || n = 65279

/-- The method `String.prototype.trim`. -/
def jsTrim (s : String) : String :=
  String.mk ((s.data.dropWhile isTrimmed).reverse.dropWhile isTrimmed).reverse

/-- The handler `handleReviewSubmit(podcastId, reviewText)`: the state and the
collections after the call. -/
def handleReviewSubmit (st : AppState) (fs : Firestore) (env : CallEnv)
    (podcastId reviewText : String) : AppState × Firestore :=
  match authenticated st with
  | none => ({ st with error := some "You must be authenticated to submit a review." }, fs)
  | some userId =>
    if jsTrim reviewText = "" then
      ({ st with error := some "Review cannot be empty." }, fs)
    else if env.writeOk = false then
      ({ st with error := some "Failed to submit review. Please try again." }, fs)
    else
      ({ st with showRatingsModal := false },
        { fs with reviews := fs.reviews ++
            [{ id := env.newDocId, podcastId := podcastId, userId := userId,
               reviewText := reviewText, timestamp := env.now }] })

/-! ## `fetchHomepageContent`: fetching and filtering the metadata (lines 176-229) -/

/-- How one catalog request ends: a response with `response.ok` and its JSON
body, a response with `!response.ok`, or a rejected `fetch` / `response.json()`
promise. -/
inductive FetchOutcome where
  | ok (data : Podcast)
  | notOk
  | rejected
  deriving DecidableEq, Repr

/-- The catalog as the application sees it during one call: the outcome of
`GET podcasts/{id}` for each id and of `GET just_listen`. -/
structure Catalog where
  podcast : String → FetchOutcome
  justListen : FetchOutcome

/-- The `async (p) => ...` callback of lines 180-192 for the id `id`: `none` when
the promise rejects, `some none` for the `null` of a `!response.ok` reply,
`some (some data)` otherwise. -/
def fetchPodcastById (cat : Catalog) (id : String) : Option (Option Podcast) :=
  match cat.podcast id with
  | FetchOutcome.ok data => some (some data)
  | FetchOutcome.notOk => some none
  | FetchOutcome.rejected => none

/-- The combinator `Promise.all`: rejects (`none`) as soon as one promise rejects, else
resolves with all the values in order. -/
def promiseAll {α : Type} : List (Option α) → Option (List α)
  | [] => some []
  | none :: _ => none
  | some a :: rest => (promiseAll rest).map (fun l => a :: l)

/-- The value of `podcastsData` after lines 177-209, or `none` when the `try`
block throws before line 211. -/
def loadPodcastsData (cat : Catalog) (ranking : List PodcastRating) :
    Option (List (Option Podcast)) :=
  if ranking.length > 0 then
    promiseAll ((ranking.take 100).map (fun p => fetchPodcastById cat p.podcastId))
  else
    match cat.justListen with
    | FetchOutcome.ok data => some [some data]
    | FetchOutcome.notOk => none
    | FetchOutcome.rejected => none

/-- The method `String.prototype.toLowerCase`, on ASCII letters; other characters
are left as they are. -/
def toLowerCase (s : String) : String := String.mk (s.data.map Char.toLower)

/-- The method `String.prototype.includes`. -/
def includes (s sub : String) : Bool :=
  s.data.tails.any (fun t => sub.data.isPrefixOf t)

/-- The method `String.prototype.startsWith`. -/
def startsWith (s pre : String) : Bool := pre.data.isPrefixOf s.data

/-- The predicate of the `validPodcasts.filter` of lines 214-218. -/
def matchesFilters (selectedCategory selectedLanguage : String) (p : Podcast) : Bool :=
  let matchesCategory :=
    decide (selectedCategory = "All") ||
      (match p.genres with
       | some genres =>
         genres.any (fun genre => includes (toLowerCase genre) (toLowerCase selectedCategory))
       | none => false)
  let matchesLanguage :=
    decide (selectedLanguage = "en") || startsWith p.language selectedLanguage
  matchesCategory && matchesLanguage

/-- The call `s.replace('-', ' ')`: the first hyphen becomes a blank. -/
def replaceFirstHyphen : List Char → List Char
  | [] => []
  | c :: rest => if c = '-' then ' ' :: rest else c :: replaceFirstHyphen rest

/-- The message of line 222. -/
def noneFoundMessage (sect : String) : String :=
  "No " ++ String.mk (replaceFirstHyphen sect.data) ++
    " podcasts found with the selected filters."

/-- Lines 176-229 of `fetchHomepageContent` for the ranking `ranking`: the state once
the `try` / `catch` / `finally` has run. -/
def showRanking (st : AppState) (cat : Catalog) (sect : String)
    (ranking : List PodcastRating) : AppState :=
  match loadPodcastsData cat ranking with
  | none =>
    { st with
      error := some "Failed to fetch podcasts. Please check your network connection."
      loading := false }
  | some podcastsData =>
    let validPodcasts := podcastsData.filterMap (fun p => p)
    let filteredResults :=
      validPodcasts.filter (matchesFilters st.selectedCategory st.selectedLanguage)
    { st with
      podcasts := filteredResults
      error := if filteredResults.length = 0 then some (noneFoundMessage sect) else none
      loading := false }

/-- The function `fetchHomepageContent(section)` at the clock value `now`: the state once
the call has completed. -/
def fetchHomepageContent (st : AppState) (cat : Catalog) (now : Int) (sect : String) :
    AppState :=
  showRanking { st with loading := true, error := none, podcasts := [] } cat sect
    (filteredPodcastIds sect st.ratings now)

/-! ## `fetchMyRatings` (lines 232-277) -/

/-- The expression `[...new Set(ids)]`: the distinct ids in order of first occurrence. -/
def uniqueInOrder : List String → List String
  | [] => []
  | x :: rest => x :: (uniqueInOrder rest).filter (fun y => decide (y ≠ x))

/-- The function `fetchMyRatings()`: the state once the call has completed; `readOk`
tells whether `getDocs` resolves. -/
def fetchMyRatings (st : AppState) (fs : Firestore) (readOk : Bool) (cat : Catalog) :
    AppState :=
  let st1 := { st with loading := true, error := none, myRatings := [] }
  match authenticated st with
  | none => { st1 with loading := false }
  | some userId =>
    if readOk = false then
      { st1 with error := some "Failed to fetch your ratings.", loading := false }
    else
      let ratedPodcastIds :=
        (fs.ratings.filter (fun d => decide (d.userId = userId))).map RatingDoc.podcastId
      let uniquePodcastIds := uniqueInOrder ratedPodcastIds
      match promiseAll (uniquePodcastIds.map (fetchPodcastById cat)) with
      | none => { st1 with error := some "Failed to fetch your ratings.", loading := false }
      | some podcastsData =>
        let found := podcastsData.filterMap (fun p => p)
        { st1 with
          myRatings := found
          error := if found.length = 0 then some "You haven't rated any podcasts yet."
                   else none
          loading := false }

/-! ## The content effect (lines 138-146) and the ratings feed callbacks -/

/-- What one run of an effect or callback reads from outside the component: the
catalog, the clock, the collections and whether `getDocs` resolves. -/
structure World where
  cat : Catalog
  now : Int
  fs : Firestore
  readOk : Bool

/-- The body of the effect of lines 138-146. -/
def contentEffect (w : World) (st : AppState) : AppState :=
  if st.isAuthReady = true ∧ st.db = true then
    if st.currentView = "home" then
      fetchHomepageContent st w.cat w.now st.currentHomepageSection
    else if st.currentView = "my-ratings" then
      fetchMyRatings st w.fs w.readOk w.cat
    else st
  else st

/-- The values of the dependency array of the effect of lines 138-146. -/
structure EffectDeps where
  isAuthReady : Bool
  db : Bool
  currentView : String
  currentHomepageSection : String
  ratings : RatingsMap
  selectedCategory : String
  selectedLanguage : String
  deriving DecidableEq, Repr

/-- The dependency array of the effect of lines 138-146. -/
def effectDeps (st : AppState) : EffectDeps :=
  { isAuthReady := st.isAuthReady, db := st.db, currentView := st.currentView,
    currentHomepageSection := st.currentHomepageSection, ratings := st.ratings,
    selectedCategory := st.selectedCategory, selectedLanguage := st.selectedLanguage }

/-- A render after a state update that stored no new object in a dependency cell: React
runs the content effect again only when the dependency array changed. -/
def rerender (w : World) (old new : AppState) : AppState :=
  if effectDeps new = effectDeps old then new else contentEffect w new

/-- The success callback of `onSnapshot` (lines 91-106) followed by the render it causes:
`setRatings` stores a new object, so the content effect runs again. -/
def onSnapshotNext (w : World) (uid : String) (st : AppState) (snapshot : List RatingDoc) :
    AppState :=
  contentEffect w { st with ratings := ratingsListener uid snapshot }

/-- The error callback of `onSnapshot` (lines 107-110) followed by the render it
causes. -/
def onSnapshotError (w : World) (st : AppState) : AppState :=
  rerender w st { st with error := some "Failed to fetch ratings from the database." }

/-! ## `renderStars` (lines 400-413) -/

/-- The value of `averageRating` (line 402). -/
def averageRating (ratings : RatingsMap) (id : String) : ℚ :=
  match getProp ratings id with
  | some podcastRatings => (podcastRatings.totalRating : ℚ) / (podcastRatings.count : ℚ)
  | none => 0

/-- The value of `fullStars` (line 403). -/
def fullStars (ratings : RatingsMap) (id : String) : Int :=
  Int.floor (averageRating ratings id)

/-- The value of `hasHalfStar` (line 404). -/
def hasHalfStar (ratings : RatingsMap) (id : String) : Bool :=
  decide (averageRating ratings id - (fullStars ratings id : ℚ) ≥ 0.5)

/-- The three values of `starClass`: grey (`text-gray-400`), gold and half-opaque gold. -/
inductive StarClass where
  | gray
  | gold
  | halfGold
  deriving DecidableEq, Repr

/-- The value of `starClass` for the loop index `i` (lines 408-413). -/
def starClass (ratings : RatingsMap) (id : String) (i : Int) : StarClass :=
  if i ≤ fullStars ratings id then StarClass.gold
  else if hasHalfStar ratings id = true ∧ i = fullStars ratings id + 1 then StarClass.halfGold
  else StarClass.gray

/-- The classes of the five stars `renderStars(id)` draws, for `i = 1, ..., 5`. -/
def renderStars (ratings : RatingsMap) (id : String) : List StarClass :=
  starValues.map (starClass ratings id)

/-! ## Specification-side definitions and scenario data -/

/-- The documents of a snapshot that rate podcast `s`, in snapshot order. -/
def recordsOf (snapshot : List RatingDoc) (s : String) : List RatingDoc :=
  snapshot.filter (fun d => decide (d.podcastId = s))

/-- The aggregate the specification assigns to a group of rating documents. -/
def aggregateOf (uid : String) (rs : List RatingDoc) : Aggregate :=
  { totalRating := (rs.map RatingDoc.rating).sum
    count := rs.length
    userRated := rs.any (fun d => decide (d.userId = uid))
    recentRatings := 0
    ratings := rs.map (fun d => { rating := d.rating, timestamp := d.timestamp }) }

/-- The recency test of line 158 read on a rating document at the evaluation
time `asOf`. -/
def withinSevenDays (asOf : Int) (d : RatingDoc) : Bool :=
  match d.timestamp with
  | some t => decide (asOf - t < 7 * 24 * 60 * 60 * 1000)
  | none => false

instance : IsTotal PodcastRating (cmpLE byAverageDesc) :=
  ⟨fun a b => by
    unfold cmpLE byAverageDesc
    rcases le_total a.average b.average with h | h
    · right; linarith
    · left; linarith⟩

instance : IsTrans PodcastRating (cmpLE byAverageDesc) :=
  ⟨fun a b c hab hbc => by
    unfold cmpLE byAverageDesc at *
    linarith⟩

instance : IsTotal PodcastRating (cmpLE byRecentCountDesc) :=
  ⟨fun a b => by
    unfold cmpLE byRecentCountDesc
    rcases le_total (a.recentCount : ℚ) (b.recentCount : ℚ) with h | h
    · right; linarith
    · left; linarith⟩

instance : IsTrans PodcastRating (cmpLE byRecentCountDesc) :=
  ⟨fun a b c hab hbc => by
    unfold cmpLE byRecentCountDesc at *
    linarith⟩

/-- The records `{A,u1,5}, {A,u2,4}, {B,u1,3}` of the specification's scenario,
all stamped at time 0. -/
def scenarioSnapshot : List RatingDoc :=
  [⟨"d1", "A", "u1", 5, some 0⟩, ⟨"d2", "A", "u2", 4, some 0⟩, ⟨"d3", "B", "u1", 3, some 0⟩]

/-- The `(podcastId, userId)` pairs of the documents of the ratings collection. -/
def pairKeys (docs : List RatingDoc) : List (String × String) :=
  docs.map (fun d => (d.podcastId, d.userId))

/-- The number of rating documents of podcast `p`. -/
def recordCount (docs : List RatingDoc) (p : String) : Nat :=
  docs.countP (fun d => decide (d.podcastId = p))

/-- A signed-in user `u1` with a database handle. -/
def signedIn : AppState :=
  { userId := some "u1", db := true, error := none, ratings := [], podcasts := [],
    loading := false, showRatingsModal := true }

/-- A call at time 1000000000 ms (more than eleven days after time 0) whose
backend calls resolve. -/
def liveEnv : CallEnv := { now := 1000000000, newDocId := "d9", readOk := true, writeOk := true }

/-- A ratings collection holding one rating of podcast `A` by `u1`, stamped at
time 0. -/
def oneRating : Firestore :=
  { ratings := [⟨"d1", "A", "u1", 2, some 0⟩], reviews := [] }

/-- The empty collections. -/
def emptyStore : Firestore := { ratings := [], reviews := [] }

/-- One rating 4 of podcast `A`, then two ratings 4 of podcast `B`. -/
def tieSnapshot : List RatingDoc :=
  [⟨"d1", "A", "u1", 4, some 0⟩, ⟨"d2", "B", "u1", 4, some 0⟩, ⟨"d3", "B", "u2", 4, some 0⟩]

/-- The documents of `tieSnapshot` with those of podcast `B` first. -/
def tieSnapshotSwapped : List RatingDoc :=
  [⟨"d2", "B", "u1", 4, some 0⟩, ⟨"d3", "B", "u2", 4, some 0⟩, ⟨"d1", "A", "u1", 4, some 0⟩]

/-- The data of a successful request for `id`, if the request succeeds. -/
def successData (cat : Catalog) (id : String) : Option Podcast :=
  match cat.podcast id with
  | FetchOutcome.ok data => some data
  | FetchOutcome.notOk => none
  | FetchOutcome.rejected => none

/-- A catalog that knows the English-language podcast `A` and answers every
other id, and `just_listen`, with an error status. -/
def catalogA : Catalog :=
  { podcast := fun id => if id = "A" then FetchOutcome.ok ⟨"A", none, "en"⟩ else FetchOutcome.notOk
    justListen := FetchOutcome.notOk }

/-- A catalog whose `just_listen` answers with the podcast `R`. -/
def catalogFallback : Catalog :=
  { podcast := fun _ => FetchOutcome.notOk
    justListen := FetchOutcome.ok ⟨"R", none, "en"⟩ }

/-- A ranking holding the podcasts `A` and `B`. -/
def rankingAB : List PodcastRating := [⟨"A", 5, 1, 1⟩, ⟨"B", 4, 1, 1⟩]

/-- The signed-in state with the language filter set to Spanish. -/
def spanishSelected : AppState := { signedIn with selectedLanguage := "es" }

/-- A ranking of 101 rows (the podcast `A` repeated), one more than the cap. -/
def longRanking : List PodcastRating := List.replicate 101 ⟨"A", 5, 1, 1⟩

/-! ## Theorems -/

theorem getProp_nil (s : String) : getProp [] s = none := rfl

theorem getProp_cons (k : String) (v : Aggregate) (rest : RatingsMap) (s : String) :
    getProp ((k, v) :: rest) s = if k = s then some v else getProp rest s := rfl

theorem updateProp_nil (key : String) (f : Aggregate → Aggregate) :
    updateProp [] key f = [] := rfl

theorem updateProp_cons (k : String) (v : Aggregate) (rest : RatingsMap) (key : String)
    (f : Aggregate → Aggregate) :
    updateProp ((k, v) :: rest) key f =
      (if k = key then (k, f v) else (k, v)) :: updateProp rest key f := rfl

theorem getProp_append_single (m : RatingsMap) (k : String) (v : Aggregate) (s : String) :
    getProp (m ++ [(k, v)]) s =
      match getProp m s with
      | some a => some a
      | none => if k = s then some v else none := by
  induction m with
  | nil => simp [getProp_cons, getProp_nil]
  | cons kv rest ih =>
    obtain ⟨k', v'⟩ := kv
    rw [List.cons_append, getProp_cons, getProp_cons]
    by_cases h : k' = s
    · simp [h]
    · simp [h, ih]

theorem getProp_updateProp (m : RatingsMap) (key : String) (f : Aggregate → Aggregate)
    (s : String) :
    getProp (updateProp m key f) s = if key = s then (getProp m s).map f else getProp m s := by
  induction m with
  | nil => simp [getProp_nil, updateProp_nil]
  | cons kv rest ih =>
    obtain ⟨k', v'⟩ := kv
    rw [updateProp_cons, getProp_cons]
    by_cases hk : k' = key
    · subst hk
      by_cases hs : k' = s
      · simp [hs, getProp_cons]
      · simp [hs, getProp_cons, ih]
    · by_cases hs : key = s
      · subst hs
        simp [hk, getProp_cons, ih]
      · by_cases h3 : k' = s
        · subst h3
          simp [hk, hs, getProp_cons]
        · simp [hk, hs, h3, getProp_cons, ih]

theorem getProp_forEachDoc (uid : String) (m : RatingsMap) (d : RatingDoc) (s : String) :
    getProp (forEachDoc uid m d) s =
      if d.podcastId = s then some (addRating uid d ((getProp m s).getD freshAggregate))
      else getProp m s := by
  unfold forEachDoc
  by_cases hs : d.podcastId = s
  · subst hs
    cases hg : getProp m d.podcastId with
    | none => simp [getProp_updateProp, getProp_append_single, hg]
    | some a => simp [getProp_updateProp, hg]
  · cases hg : getProp m d.podcastId with
    | none =>
      simp only [getProp_updateProp, getProp_append_single, hs, if_false]
      cases getProp m s <;> rfl
    | some a => simp [getProp_updateProp, hs]

theorem ratingsListener_snoc (uid : String) (l : List RatingDoc) (d : RatingDoc) :
    ratingsListener uid (l ++ [d]) = forEachDoc uid (ratingsListener uid l) d := by
  simp [ratingsListener, List.foldl_append]

theorem recordsOf_snoc (l : List RatingDoc) (d : RatingDoc) (s : String) :
    recordsOf (l ++ [d]) s = recordsOf l s ++ (if d.podcastId = s then [d] else []) := by
  unfold recordsOf
  rw [List.filter_append]
  by_cases h : d.podcastId = s <;> simp [h]

theorem addRating_aggregateOf (uid : String) (d : RatingDoc) (rs : List RatingDoc) :
    addRating uid d (aggregateOf uid rs) = aggregateOf uid (rs ++ [d]) := by
  unfold addRating aggregateOf
  by_cases h : d.userId = uid <;> simp [h]

theorem getProp_ratingsListener (uid : String) (snapshot : List RatingDoc) (s : String) :
    getProp (ratingsListener uid snapshot) s =
      if recordsOf snapshot s = [] then none else some (aggregateOf uid (recordsOf snapshot s)) := by
  induction snapshot using List.reverseRecOn with
  | nil => simp [ratingsListener, recordsOf, getProp_nil]
  | append_singleton l d ih =>
    rw [ratingsListener_snoc, getProp_forEachDoc, recordsOf_snoc, ih]
    by_cases h : d.podcastId = s
    · simp only [h, if_true]
      by_cases he : recordsOf l s = []
      · have hf : freshAggregate = aggregateOf uid [] := rfl
        simp [he, hf, addRating_aggregateOf]
      · simp [he, addRating_aggregateOf]
    · simp [h]

theorem mem_ownKeys_iff (m : RatingsMap) (s : String) :
    s ∈ ownKeys m ↔ (getProp m s).isSome = true := by
  induction m with
  | nil => simp [ownKeys, getProp_nil]
  | cons kv rest ih =>
    obtain ⟨k, v⟩ := kv
    simp only [ownKeys, List.map_cons, List.mem_cons, getProp_cons] at ih ⊢
    by_cases h : k = s
    · simp [h]
    · simp [h, ih, Ne.symm h]

theorem ownKeys_updateProp (m : RatingsMap) (key : String) (f : Aggregate → Aggregate) :
    ownKeys (updateProp m key f) = ownKeys m := by
  induction m with
  | nil => rfl
  | cons kv rest ih =>
    obtain ⟨k, v⟩ := kv
    simp only [ownKeys, List.map_cons, updateProp_cons] at ih ⊢
    by_cases h : k = key <;> simp [h, ih]

theorem ownKeys_forEachDoc_nodup (uid : String) (m : RatingsMap) (d : RatingDoc)
    (h : (ownKeys m).Nodup) : (ownKeys (forEachDoc uid m d)).Nodup := by
  unfold forEachDoc
  rw [ownKeys_updateProp]
  cases hg : getProp m d.podcastId with
  | some a => simpa using h
  | none =>
    have hn : d.podcastId ∉ ownKeys m := by
      rw [mem_ownKeys_iff, hg]; simp
    simp only [ownKeys, List.map_append, List.map_cons, List.map_nil] at hn ⊢
    exact List.Nodup.append h (List.nodup_singleton _) (by simpa using hn)

theorem ownKeys_ratingsListener_nodup (uid : String) (snapshot : List RatingDoc) :
    (ownKeys (ratingsListener uid snapshot)).Nodup := by
  induction snapshot using List.reverseRecOn with
  | nil => simp [ratingsListener, ownKeys]
  | append_singleton l d ih =>
    rw [ratingsListener_snoc]
    exact ownKeys_forEachDoc_nodup uid _ d ih

theorem objectEntries_perm (m : RatingsMap) : (objectEntries m).Perm m := by
  unfold objectEntries
  exact ((List.perm_insertionSort indexLE _).append_right _).trans
    (List.filter_append_perm isIndexKey m)

theorem mem_objectEntries (m : RatingsMap) (kv : String × Aggregate) :
    kv ∈ objectEntries m ↔ kv ∈ m := (objectEntries_perm m).mem_iff

theorem getProp_of_mem (m : RatingsMap) (h : (ownKeys m).Nodup) (k : String) (a : Aggregate)
    (hm : (k, a) ∈ m) : getProp m k = some a := by
  induction m with
  | nil => simp at hm
  | cons kv rest ih =>
    obtain ⟨k', v'⟩ := kv
    simp only [ownKeys, List.map_cons, List.nodup_cons] at h
    rw [getProp_cons]
    rcases List.mem_cons.1 hm with heq | hin
    · cases heq; simp
    · have hne : k' ≠ k := by
        intro hk
        apply h.1
        rw [hk]
        exact List.mem_map.2 ⟨(k, a), hin, rfl⟩
      simp only [hne, if_false]
      exact ih h.2 hin

theorem mem_of_getProp (m : RatingsMap) (k : String) (a : Aggregate)
    (hg : getProp m k = some a) : (k, a) ∈ m := by
  induction m with
  | nil => simp [getProp_nil] at hg
  | cons kv rest ih =>
    obtain ⟨k', v'⟩ := kv
    rw [getProp_cons] at hg
    by_cases hk : k' = k
    · simp only [hk, if_true, Option.some.injEq] at hg
      simp [hk, hg]
    · simp only [hk, if_false] at hg
      exact List.mem_cons_of_mem _ (ih hg)

theorem mem_allPodcastRatings (ratings : RatingsMap) (now : Int) (p : PodcastRating) :
    p ∈ allPodcastRatings ratings now ↔ ∃ kv ∈ ratings, toPodcastRating now kv = p := by
  unfold allPodcastRatings
  rw [List.mem_map]
  constructor
  · rintro ⟨kv, hkv, rfl⟩
    exact ⟨kv, (mem_objectEntries _ _).1 hkv, rfl⟩
  · rintro ⟨kv, hkv, rfl⟩
    exact ⟨kv, (mem_objectEntries _ _).2 hkv, rfl⟩

theorem recent_length_aggregateOf (uid : String) (now : Int) (rs : List RatingDoc) :
    ((aggregateOf uid rs).ratings.filter (isRecent now)).length =
      rs.countP (withinSevenDays now) := by
  induction rs with
  | nil => rfl
  | cons d rest ih =>
    have hd : isRecent now { rating := d.rating, timestamp := d.timestamp } =
        withinSevenDays now d := by
      unfold isRecent withinSevenDays sevenDays
      cases d.timestamp <;> rfl
    simp only [aggregateOf, List.map_cons, List.filter_cons, List.countP_cons] at ih ⊢
    rw [hd]
    cases withinSevenDays now d <;> simp [ih]

theorem ratingsListener_mem (uid : String) (snapshot : List RatingDoc) (k : String)
    (a : Aggregate) (h : (k, a) ∈ ratingsListener uid snapshot) :
    recordsOf snapshot k ≠ [] ∧ a = aggregateOf uid (recordsOf snapshot k) := by
  have hg := getProp_of_mem _ (ownKeys_ratingsListener_nodup uid snapshot) k a h
  rw [getProp_ratingsListener] at hg
  by_cases he : recordsOf snapshot k = []
  · simp [he] at hg
  · simp only [he, if_false, Option.some.injEq] at hg
    exact ⟨he, hg.symm⟩

theorem recordsOf_ne_nil_iff (snapshot : List RatingDoc) (s : String) :
    recordsOf snapshot s ≠ [] ↔ ∃ d ∈ snapshot, d.podcastId = s := by
  unfold recordsOf
  rw [Ne, List.filter_eq_nil_iff]
  simp

/-- C1: for every snapshot of rating documents and every caller id, the object
built by the ratings listener has an entry for a podcast `s` exactly when some
document has `podcastId = s` (each podcast at most once); the entry's `count`
is the number of those documents, its `totalRating` the sum of their ratings,
and `userRated` holds exactly when one of them has `userId` equal to the
caller id. -/
theorem ratingsListener_aggregates (uid : String) (snapshot : List RatingDoc) (s : String) :
    (s ∈ ownKeys (ratingsListener uid snapshot) ↔ ∃ d ∈ snapshot, d.podcastId = s) ∧
    ((getProp (ratingsListener uid snapshot) s).isSome = true ↔
      ∃ d ∈ snapshot, d.podcastId = s) ∧
    (ownKeys (ratingsListener uid snapshot)).Nodup ∧
    ∀ a, getProp (ratingsListener uid snapshot) s = some a →
      a.count = snapshot.countP (fun d => decide (d.podcastId = s)) ∧
      a.totalRating =
        ((snapshot.filter (fun d => decide (d.podcastId = s))).map RatingDoc.rating).sum ∧
      (a.userRated = true ↔ ∃ d ∈ snapshot, d.podcastId = s ∧ d.userId = uid) := by
  have hsome : (getProp (ratingsListener uid snapshot) s).isSome = true ↔
      ∃ d ∈ snapshot, d.podcastId = s := by
    rw [getProp_ratingsListener, ← recordsOf_ne_nil_iff]
    by_cases he : recordsOf snapshot s = [] <;> simp [he]
  refine ⟨(mem_ownKeys_iff _ s).trans hsome, hsome, ownKeys_ratingsListener_nodup uid snapshot, ?_⟩
  intro a ha
  rw [getProp_ratingsListener] at ha
  by_cases he : recordsOf snapshot s = []
  · simp [he] at ha
  · simp only [he, if_false, Option.some.injEq] at ha
    subst ha
    refine ⟨?_, rfl, ?_⟩
    · simp [aggregateOf, recordsOf, List.countP_eq_length_filter]
    · simp [aggregateOf, recordsOf]

/-- C2: for every podcast and every evaluation time `now`, the `recentCount`
of the podcast's row in `allPodcastRatings` is the number of its rating
documents with `now - timestamp < 7 * 24 * 60 * 60 * 1000`, and every rated
podcast has a row; a document stamped 7 days and 1 ms before `now` is not
counted, one stamped 6 days 23 hours before `now` is. -/
theorem recentCount_counts_last_seven_days (uid : String) (snapshot : List RatingDoc)
    (now : Int) :
    (∀ p ∈ allPodcastRatings (ratingsListener uid snapshot) now,
      p.recentCount =
        snapshot.countP (fun d => decide (d.podcastId = p.podcastId) && withinSevenDays now d)) ∧
    (∀ s, (∃ d ∈ snapshot, d.podcastId = s) →
      ∃ p ∈ allPodcastRatings (ratingsListener uid snapshot) now, p.podcastId = s) ∧
    (∀ d : RatingDoc, d.timestamp = some (now - (7 * 24 * 60 * 60 * 1000 + 1)) →
      withinSevenDays now d = false) ∧
    (∀ d : RatingDoc, d.timestamp = some (now - (6 * 24 + 23) * 60 * 60 * 1000) →
      withinSevenDays now d = true) := by
  refine ⟨?_, ?_, ?_, ?_⟩
  · intro p hp
    obtain ⟨⟨k, a⟩, hkv, rfl⟩ := (mem_allPodcastRatings _ _ _).1 hp
    obtain ⟨_, rfl⟩ := ratingsListener_mem uid snapshot k a hkv
    simp only [toPodcastRating]
    rw [recent_length_aggregateOf, recordsOf, List.countP_filter]
    congr 1
    funext d
    exact Bool.and_comm _ _
  · intro s hs
    have he := (recordsOf_ne_nil_iff snapshot s).2 hs
    have hg := getProp_ratingsListener uid snapshot s
    simp only [he, if_false] at hg
    exact ⟨_, (mem_allPodcastRatings _ _ _).2 ⟨_, mem_of_getProp _ _ _ hg, rfl⟩, rfl⟩
  · intro d hd
    simp [withinSevenDays, hd]
  · intro d hd
    simp [withinSevenDays, hd]

theorem jsSort_perm {α : Type} (cmp : α → α → ℚ) (l : List α) : (jsSort cmp l).Perm l :=
  List.perm_insertionSort _ l

theorem mem_jsSort {α : Type} (cmp : α → α → ℚ) (l : List α) (x : α) :
    x ∈ jsSort cmp l ↔ x ∈ l := (jsSort_perm cmp l).mem_iff

theorem jsSort_byAverageDesc_sorted (l : List PodcastRating) :
    (jsSort byAverageDesc l).Pairwise (fun p q => q.average ≤ p.average) := by
  have h := List.sorted_insertionSort (cmpLE byAverageDesc) l
  refine List.Pairwise.imp ?_ h
  intro a b hab
  unfold cmpLE byAverageDesc at hab
  linarith

theorem jsSort_byRecentCountDesc_sorted (l : List PodcastRating) :
    (jsSort byRecentCountDesc l).Pairwise (fun p q => q.recentCount ≤ p.recentCount) := by
  have h := List.sorted_insertionSort (cmpLE byRecentCountDesc) l
  refine List.Pairwise.imp ?_ h
  intro a b hab
  unfold cmpLE byRecentCountDesc at hab
  have h2 : (b.recentCount : ℚ) ≤ (a.recentCount : ℚ) := by linarith
  exact_mod_cast h2

theorem rankingIds_allPodcastRatings_perm (ratings : RatingsMap) (now : Int) :
    (rankingIds (allPodcastRatings ratings now)).Perm (ownKeys ratings) := by
  unfold rankingIds allPodcastRatings ownKeys
  rw [List.map_map]
  exact (objectEntries_perm ratings).map _

theorem rankingIds_sort_filter_nodup (cmp : PodcastRating → PodcastRating → ℚ)
    (f : PodcastRating → Bool) (ratings : RatingsMap) (now : Int)
    (h : (ownKeys ratings).Nodup) :
    (rankingIds (jsSort cmp ((allPodcastRatings ratings now).filter f))).Nodup := by
  have h1 : (rankingIds (allPodcastRatings ratings now)).Nodup :=
    (rankingIds_allPodcastRatings_perm ratings now).nodup_iff.2 h
  have h2 : (rankingIds ((allPodcastRatings ratings now).filter f)).Nodup :=
    List.Nodup.sublist ((List.filter_sublist _).map _) h1
  exact ((jsSort_perm cmp _).map _).nodup_iff.2 h2

theorem mem_rankingIds_sort_filter (cmp : PodcastRating → PodcastRating → ℚ)
    (f : PodcastRating → Bool) (ratings : RatingsMap) (now : Int)
    (h : (ownKeys ratings).Nodup) (s : String) :
    s ∈ rankingIds (jsSort cmp ((allPodcastRatings ratings now).filter f)) ↔
      ∃ a, getProp ratings s = some a ∧ f (toPodcastRating now (s, a)) = true := by
  unfold rankingIds
  rw [List.mem_map]
  constructor
  · rintro ⟨p, hp, rfl⟩
    rw [mem_jsSort, List.mem_filter, mem_allPodcastRatings] at hp
    obtain ⟨⟨⟨k, a⟩, hkv, rfl⟩, hf⟩ := hp
    exact ⟨a, getProp_of_mem ratings h k a hkv, hf⟩
  · rintro ⟨a, hg, hf⟩
    refine ⟨toPodcastRating now (s, a), ?_, rfl⟩
    rw [mem_jsSort, List.mem_filter, mem_allPodcastRatings]
    exact ⟨⟨(s, a), mem_of_getProp ratings s a hg, rfl⟩, hf⟩

theorem mem_sort_filter_row (cmp : PodcastRating → PodcastRating → ℚ)
    (f : PodcastRating → Bool) (ratings : RatingsMap) (now : Int)
    (h : (ownKeys ratings).Nodup) (p : PodcastRating)
    (hp : p ∈ jsSort cmp ((allPodcastRatings ratings now).filter f)) :
    ∃ a, getProp ratings p.podcastId = some a ∧ p = toPodcastRating now (p.podcastId, a) := by
  rw [mem_jsSort, List.mem_filter, mem_allPodcastRatings] at hp
  obtain ⟨⟨⟨k, a⟩, hkv, rfl⟩, _⟩ := hp
  exact ⟨a, getProp_of_mem ratings h k a hkv, rfl⟩

theorem filteredPodcastIds_topRated (ratings : RatingsMap) (now : Int) :
    filteredPodcastIds "top-rated" ratings now =
      jsSort byAverageDesc
        ((allPodcastRatings ratings now).filter (fun p => decide (p.count > 0))) := by
  unfold filteredPodcastIds
  rw [if_pos rfl]

theorem filteredPodcastIds_trending (ratings : RatingsMap) (now : Int) :
    filteredPodcastIds "trending" ratings now =
      jsSort byRecentCountDesc
        ((allPodcastRatings ratings now).filter (fun p => decide (p.recentCount > 0))) := by
  unfold filteredPodcastIds
  rw [if_neg (by decide), if_pos rfl]

theorem filteredPodcastIds_hiddenGems (ratings : RatingsMap) (now : Int) :
    filteredPodcastIds "hidden-gems" ratings now =
      jsSort byAverageDesc ((allPodcastRatings ratings now).filter isHiddenGem) := by
  unfold filteredPodcastIds
  rw [if_neg (by decide), if_neg (by decide), if_pos rfl]

theorem scenario_ratings (uid i1 i2 i3 : String) (t1 t2 t3 : Option Int) :
    ratingsListener uid
        [⟨i1, "A", "u1", 5, t1⟩, ⟨i2, "A", "u2", 4, t2⟩, ⟨i3, "B", "u1", 3, t3⟩] =
      [("A", ⟨9, 2, decide ("u1" = uid) || decide ("u2" = uid), 0, [⟨5, t1⟩, ⟨4, t2⟩]⟩),
       ("B", ⟨3, 1, decide ("u1" = uid), 0, [⟨3, t3⟩]⟩)] := by
  by_cases h1 : "u1" = uid <;> by_cases h2 : "u2" = uid <;>
    simp [ratingsListener, forEachDoc, getProp, updateProp, addRating, freshAggregate, h1, h2]

theorem scenario_entries (a b : Aggregate) :
    objectEntries [("A", a), ("B", b)] = [("A", a), ("B", b)] := by
  have ha : arrayIndex "A" = none := by decide
  have hb : arrayIndex "B" = none := by decide
  simp [objectEntries, isIndexKey, ha, hb]

/-- C3: for every aggregate object, the top-rated ranking lists exactly the
podcasts with `count > 0`, each once, every row carrying the mean
`totalRating / count` of its podcast, in order of non-increasing mean; for the
empty object it is empty, and for the records `{A,u1,5}, {A,u2,4}, {B,u1,3}`
it is `[A, B]`. -/
theorem topRated_ranking (ratings : RatingsMap) (now : Int) (h : (ownKeys ratings).Nodup) :
    (∀ s, s ∈ rankingIds (filteredPodcastIds "top-rated" ratings now) ↔
      ∃ a, getProp ratings s = some a ∧ a.count > 0) ∧
    (rankingIds (filteredPodcastIds "top-rated" ratings now)).Nodup ∧
    (∀ p ∈ filteredPodcastIds "top-rated" ratings now,
      ∃ a, getProp ratings p.podcastId = some a ∧
        p.average = (a.totalRating : ℚ) / (a.count : ℚ)) ∧
    (filteredPodcastIds "top-rated" ratings now).Pairwise
      (fun p q => p.average ≥ q.average) ∧
    filteredPodcastIds "top-rated" [] now = [] ∧
    (∀ (uid i1 i2 i3 : String) (t1 t2 t3 : Option Int),
      rankingIds (filteredPodcastIds "top-rated"
        (ratingsListener uid
          [⟨i1, "A", "u1", 5, t1⟩, ⟨i2, "A", "u2", 4, t2⟩, ⟨i3, "B", "u1", 3, t3⟩]) now) =
        ["A", "B"]) := by
  rw [filteredPodcastIds_topRated]
  refine ⟨?_, rankingIds_sort_filter_nodup _ _ ratings now h, ?_,
    jsSort_byAverageDesc_sorted _, ?_, ?_⟩
  · intro s
    rw [mem_rankingIds_sort_filter _ _ ratings now h]
    simp [toPodcastRating]
  · intro p hp
    obtain ⟨a, hg, hpa⟩ := mem_sort_filter_row _ _ ratings now h p hp
    refine ⟨a, hg, ?_⟩
    rw [hpa]
    rfl
  · rfl
  · intro uid i1 i2 i3 t1 t2 t3
    rw [filteredPodcastIds_topRated, scenario_ratings]
    unfold allPodcastRatings
    rw [scenario_entries]
    norm_num [toPodcastRating, jsSort, List.insertionSort, List.orderedInsert, cmpLE,
      byAverageDesc, rankingIds]

/-- The top-rated ranking of the object built from `{A,u1,5}, {A,u2,4}, {B,u1,3}`
is `[A, B]`, in order of non-increasing mean. -/
theorem topRated_ranking_witness :
    (ownKeys (ratingsListener "u1" scenarioSnapshot)).Nodup ∧
    rankingIds (filteredPodcastIds "top-rated" (ratingsListener "u1" scenarioSnapshot) 0) =
      ["A", "B"] ∧
    (filteredPodcastIds "top-rated" (ratingsListener "u1" scenarioSnapshot) 0).Pairwise
      (fun p q => p.average ≥ q.average) :=
  ⟨by decide,
   (topRated_ranking (ratingsListener "u1" scenarioSnapshot) 0 (by decide)).2.2.2.2.2
     "u1" "d1" "d2" "d3" (some 0) (some 0) (some 0),
   (topRated_ranking (ratingsListener "u1" scenarioSnapshot) 0 (by decide)).2.2.2.1⟩

/-- C4: for every aggregate object, the hidden-gems ranking lists a podcast
exactly when its mean `totalRating / count` is at least 4.5 and its count is
between 1 and 10, each once, every row carrying that mean, in order of
non-increasing mean; a podcast whose ratings are 5 and 4 is listed. -/
theorem hiddenGems_ranking (ratings : RatingsMap) (now : Int) (h : (ownKeys ratings).Nodup) :
    (∀ s, s ∈ rankingIds (filteredPodcastIds "hidden-gems" ratings now) ↔
      ∃ a, getProp ratings s = some a ∧
        (a.totalRating : ℚ) / (a.count : ℚ) ≥ 4.5 ∧ 1 ≤ a.count ∧ a.count ≤ 10) ∧
    (rankingIds (filteredPodcastIds "hidden-gems" ratings now)).Nodup ∧
    (∀ p ∈ filteredPodcastIds "hidden-gems" ratings now,
      ∃ a, getProp ratings p.podcastId = some a ∧
        p.average = (a.totalRating : ℚ) / (a.count : ℚ)) ∧
    (filteredPodcastIds "hidden-gems" ratings now).Pairwise
      (fun p q => p.average ≥ q.average) ∧
    (∀ (uid : String) (snapshot : List RatingDoc) (s : String) (d1 d2 : RatingDoc),
      snapshot.filter (fun d => decide (d.podcastId = s)) = [d1, d2] →
      d1.rating = 5 → d2.rating = 4 →
      s ∈ rankingIds (filteredPodcastIds "hidden-gems" (ratingsListener uid snapshot) now)) := by
  rw [filteredPodcastIds_hiddenGems]
  refine ⟨?_, rankingIds_sort_filter_nodup _ _ ratings now h, ?_,
    jsSort_byAverageDesc_sorted _, ?_⟩
  · intro s
    rw [mem_rankingIds_sort_filter _ _ ratings now h]
    simp [toPodcastRating, isHiddenGem, and_assoc, Nat.succ_le_iff]
  · intro p hp
    obtain ⟨a, hg, hpa⟩ := mem_sort_filter_row _ _ ratings now h p hp
    refine ⟨a, hg, ?_⟩
    rw [hpa]
    rfl
  · intro uid snapshot s d1 d2 hrec h1 h2
    rw [filteredPodcastIds_hiddenGems,
      mem_rankingIds_sort_filter _ _ _ now (ownKeys_ratingsListener_nodup uid snapshot)]
    have hr : recordsOf snapshot s = [d1, d2] := hrec
    refine ⟨aggregateOf uid [d1, d2], ?_, ?_⟩
    · rw [getProp_ratingsListener, hr]
      simp
    · simp only [toPodcastRating, isHiddenGem, aggregateOf, List.map_cons, List.map_nil, h1, h2]
      norm_num

/-- The hidden-gems ranking of the object built from `{A,u1,5}, {A,u2,4}, {B,u1,3}`
lists `A`, whose ratings are 5 and 4. -/
theorem hiddenGems_ranking_witness :
    (ownKeys (ratingsListener "u1" scenarioSnapshot)).Nodup ∧
    "A" ∈ rankingIds (filteredPodcastIds "hidden-gems"
      (ratingsListener "u1" scenarioSnapshot) 0) ∧
    (filteredPodcastIds "hidden-gems" (ratingsListener "u1" scenarioSnapshot) 0).Pairwise
      (fun p q => p.average ≥ q.average) :=
  ⟨by decide,
   (hiddenGems_ranking (ratingsListener "u1" scenarioSnapshot) 0 (by decide)).2.2.2.2
     "u1" scenarioSnapshot "A" ⟨"d1", "A", "u1", 5, some 0⟩ ⟨"d2", "A", "u2", 4, some 0⟩
     (by decide) rfl rfl,
   (hiddenGems_ranking (ratingsListener "u1" scenarioSnapshot) 0 (by decide)).2.2.2.1⟩

/-- C5: for every aggregate object and evaluation time, the trending ranking
lists exactly the podcasts with `recentCount > 0`, each once, every row
carrying the `recentCount` of its podcast, in order of non-increasing
`recentCount`. -/
theorem trending_ranking (ratings : RatingsMap) (now : Int) (h : (ownKeys ratings).Nodup) :
    (∀ s, s ∈ rankingIds (filteredPodcastIds "trending" ratings now) ↔
      ∃ a, getProp ratings s = some a ∧ (a.ratings.filter (isRecent now)).length > 0) ∧
    (rankingIds (filteredPodcastIds "trending" ratings now)).Nodup ∧
    (∀ p ∈ filteredPodcastIds "trending" ratings now,
      p.recentCount > 0 ∧
      ∃ a, getProp ratings p.podcastId = some a ∧
        p.recentCount = (a.ratings.filter (isRecent now)).length) ∧
    (filteredPodcastIds "trending" ratings now).Pairwise
      (fun p q => p.recentCount ≥ q.recentCount) := by
  rw [filteredPodcastIds_trending]
  refine ⟨?_, rankingIds_sort_filter_nodup _ _ ratings now h, ?_,
    jsSort_byRecentCountDesc_sorted _⟩
  · intro s
    rw [mem_rankingIds_sort_filter _ _ ratings now h]
    simp [toPodcastRating]
  · intro p hp
    have hpos : p.recentCount > 0 := by
      rw [mem_jsSort, List.mem_filter] at hp
      simpa using hp.2
    obtain ⟨a, hg, hpa⟩ := mem_sort_filter_row _ _ ratings now h p hp
    refine ⟨hpos, a, hg, ?_⟩
    rw [hpa]
    rfl

/-- The trending ranking of the object built from `{A,u1,5}, {A,u2,4}, {B,u1,3}`,
all stamped at the evaluation time, is `[A, B]`. -/
theorem trending_ranking_witness :
    (ownKeys (ratingsListener "u1" scenarioSnapshot)).Nodup ∧
    (rankingIds (filteredPodcastIds "trending"
      (ratingsListener "u1" scenarioSnapshot) 0)).Nodup ∧
    (filteredPodcastIds "trending" (ratingsListener "u1" scenarioSnapshot) 0).Pairwise
      (fun p q => p.recentCount ≥ q.recentCount) :=
  ⟨by decide,
   (trending_ranking (ratingsListener "u1" scenarioSnapshot) 0 (by decide)).2.1,
   (trending_ranking (ratingsListener "u1" scenarioSnapshot) 0 (by decide)).2.2.2⟩

theorem pairKeys_updateRating (docs : List RatingDoc) (docId : String) (v : Int) :
    pairKeys (updateRating docs docId v) = pairKeys docs := by
  unfold pairKeys updateRating
  rw [List.map_map]
  apply List.map_congr_left
  intro d _
  by_cases h : d.id = docId <;> simp [h]

theorem recordCount_updateRating (docs : List RatingDoc) (docId : String) (v : Int)
    (p : String) : recordCount (updateRating docs docId v) p = recordCount docs p := by
  unfold recordCount updateRating
  rw [List.countP_map]
  apply List.countP_congr
  intro d _
  by_cases h : d.id = docId <;> simp [h]

theorem length_updateRating (docs : List RatingDoc) (docId : String) (v : Int) :
    (updateRating docs docId v).length = docs.length := by
  simp [updateRating]

theorem queryRatings_head_none (docs : List RatingDoc) (id u : String)
    (h : (queryRatings docs id u).head? = none) :
    ∀ d ∈ docs, ¬ (d.podcastId = id ∧ d.userId = u) := by
  intro d hd hmatch
  have hmem : d ∈ queryRatings docs id u := by
    unfold queryRatings
    rw [List.mem_filter]
    exact ⟨hd, by simp [hmatch.1, hmatch.2]⟩
  cases hq : queryRatings docs id u with
  | nil => rw [hq] at hmem; simp at hmem
  | cons x xs => rw [hq] at h; simp at h

theorem queryRatings_head_some (docs : List RatingDoc) (id u : String) (e : RatingDoc)
    (h : (queryRatings docs id u).head? = some e) :
    e ∈ docs ∧ e.podcastId = id ∧ e.userId = u := by
  have hmem : e ∈ queryRatings docs id u := List.mem_of_mem_head? h
  unfold queryRatings at hmem
  rw [List.mem_filter] at hmem
  simpa using hmem

theorem handleRating_ratings_cases (st : AppState) (fs : Firestore) (env : CallEnv)
    (id : String) (v : Int) (type : String) :
    (handleRating st fs env id v type).2.ratings = fs.ratings ∨
    (∃ u e, authenticated st = some u ∧ env.readOk = true ∧ env.writeOk = true ∧
      (queryRatings fs.ratings id u).head? = some e ∧
      (handleRating st fs env id v type) =
        (st, { fs with ratings := updateRating fs.ratings e.id v })) ∨
    (∃ u, authenticated st = some u ∧ env.readOk = true ∧ env.writeOk = true ∧
      (queryRatings fs.ratings id u).head? = none ∧
      (handleRating st fs env id v type) =
        (st, { fs with ratings := fs.ratings ++ [newRatingData env id u v] })) := by
  unfold handleRating
  cases ha : authenticated st with
  | none => left; rfl
  | some u =>
    dsimp only
    cases hr : env.readOk with
    | false => left; simp
    | true =>
      cases hw : env.writeOk with
      | false =>
        left
        cases hq : (queryRatings fs.ratings id u).head? <;> simp
      | true =>
        cases hq : (queryRatings fs.ratings id u).head? with
        | none => right; right; exact ⟨u, rfl, rfl, rfl, hq, by simp⟩
        | some e => right; left; exact ⟨u, e, rfl, rfl, rfl, hq, by simp⟩

theorem authenticated_userId (st : AppState) (u : String) (h : authenticated st = some u) :
    st.userId = some u ∧ u ≠ "" ∧ st.db = true := by
  unfold authenticated at h
  cases hu : st.userId with
  | none => rw [hu] at h; simp at h
  | some w =>
    rw [hu] at h
    dsimp only at h
    by_cases hc : w ≠ "" ∧ st.db = true
    · rw [if_pos hc] at h
      cases h
      exact ⟨rfl, hc.1, hc.2⟩
    · rw [if_neg hc] at h
      cases h

theorem aggregate_count (uid : String) (docs : List RatingDoc) (p : String) :
    (getProp (ratingsListener uid docs) p).map Aggregate.count =
      if recordCount docs p = 0 then none else some (recordCount docs p) := by
  have hlen : (recordsOf docs p).length = recordCount docs p := by
    simp [recordsOf, recordCount, List.countP_eq_length_filter]
  rw [getProp_ratingsListener, ← hlen]
  by_cases he : recordsOf docs p = []
  · simp [he]
  · have hpos : (recordsOf docs p).length ≠ 0 := fun h0 => he (List.length_eq_zero.1 h0)
    simp [he, hpos, aggregateOf]

/-- C6: on a ratings collection holding at most one document per
`(podcastId, userId)` pair, a submission by a user who already has a document
for the podcast leaves the number of documents of every podcast unchanged, a
submission by a signed-in user without one, with the backend calls resolving,
appends exactly one document, and in every case the collection still holds at
most one document per pair; after a resubmission the listener reports the same
`count` for every podcast as before. -/
theorem handleRating_one_record_per_pair (st : AppState) (fs : Firestore) (env : CallEnv)
    (id : String) (ratingValue : Int) (type : String) (h : (pairKeys fs.ratings).Nodup) :
    ((∃ u, st.userId = some u ∧ ∃ d ∈ fs.ratings, d.podcastId = id ∧ d.userId = u) →
      (handleRating st fs env id ratingValue type).2.ratings.length = fs.ratings.length ∧
      (∀ p, recordCount (handleRating st fs env id ratingValue type).2.ratings p =
        recordCount fs.ratings p) ∧
      ∀ uid p,
        (getProp (ratingsListener uid
            (handleRating st fs env id ratingValue type).2.ratings) p).map Aggregate.count =
          (getProp (ratingsListener uid fs.ratings) p).map Aggregate.count) ∧
    (∀ u, authenticated st = some u → env.readOk = true → env.writeOk = true →
      (∀ d ∈ fs.ratings, ¬ (d.podcastId = id ∧ d.userId = u)) →
      (∃ r, (handleRating st fs env id ratingValue type).2.ratings = fs.ratings ++ [r] ∧
        r.podcastId = id ∧ r.userId = u ∧ r.rating = ratingValue) ∧
      recordCount (handleRating st fs env id ratingValue type).2.ratings id =
        recordCount fs.ratings id + 1 ∧
      ∀ p, p ≠ id → recordCount (handleRating st fs env id ratingValue type).2.ratings p =
        recordCount fs.ratings p) ∧
    (pairKeys (handleRating st fs env id ratingValue type).2.ratings).Nodup := by
  refine ⟨?_, ?_, ?_⟩
  · rintro ⟨u, hu, d, hd, hdp, hdu⟩
    rcases handleRating_ratings_cases st fs env id ratingValue type with
      hsame | ⟨u', e, _, _, _, _, heq⟩ | ⟨u', ha, _, _, hq, _⟩
    · rw [hsame]
      exact ⟨rfl, fun _ => rfl, fun _ _ => rfl⟩
    · rw [heq]
      refine ⟨length_updateRating _ _ _, fun p => recordCount_updateRating _ _ _ p, ?_⟩
      intro uid p
      rw [aggregate_count, aggregate_count, recordCount_updateRating]
    · exfalso
      have hu' := (authenticated_userId st u' ha).1
      rw [hu] at hu'
      cases hu'
      exact queryRatings_head_none _ _ _ hq d hd ⟨hdp, hdu⟩
  · intro u ha hr hw hno
    rcases handleRating_ratings_cases st fs env id ratingValue type with
      hsame | ⟨u', e, ha', _, _, hq, _⟩ | ⟨u', ha', _, _, _, heq⟩
    · exfalso
      unfold handleRating at hsame
      have hq : (queryRatings fs.ratings id u).head? = none := by
        cases hq : (queryRatings fs.ratings id u).head? with
        | none => rfl
        | some e =>
          have := queryRatings_head_some _ _ _ _ hq
          exact absurd ⟨this.2.1, this.2.2⟩ (hno e this.1)
      simp [ha, hr, hw, hq] at hsame
    · exfalso
      rw [ha] at ha'
      cases ha'
      have := queryRatings_head_some _ _ _ _ hq
      exact hno e this.1 ⟨this.2.1, this.2.2⟩
    · rw [ha] at ha'
      cases ha'
      rw [heq]
      refine ⟨⟨newRatingData env id u ratingValue, rfl, rfl, rfl, rfl⟩, ?_, ?_⟩
      · simp [recordCount, newRatingData, List.countP_append]
      · intro p hp
        simp [recordCount, newRatingData, List.countP_append, Ne.symm hp]
  · rcases handleRating_ratings_cases st fs env id ratingValue type with
      hsame | ⟨u', e, _, _, _, _, heq⟩ | ⟨u', _, _, _, hq, heq⟩
    · rw [hsame]; exact h
    · rw [heq, pairKeys_updateRating]; exact h
    · rw [heq]
      have hno := queryRatings_head_none _ _ _ hq
      simp only [pairKeys, List.map_append, List.map_cons, List.map_nil, newRatingData]
      refine List.Nodup.append h (List.nodup_singleton _) ?_
      intro x hx hx'
      rw [List.mem_singleton] at hx'
      subst hx'
      obtain ⟨d, hd, hdx⟩ := List.mem_map.1 hx
      simp only [Prod.mk.injEq] at hdx
      exact hno d hd hdx

theorem queryRatings_eq_singleton (docs : List RatingDoc) (e : RatingDoc)
    (h : (pairKeys docs).Nodup) (he : e ∈ docs) :
    queryRatings docs e.podcastId e.userId = [e] := by
  induction docs with
  | nil => simp at he
  | cons d rest ih =>
    simp only [pairKeys, List.map_cons, List.nodup_cons] at h
    unfold queryRatings at ih ⊢
    rcases List.mem_cons.1 he with heq | hin
    · subst heq
      have hrest : rest.filter
          (fun d => decide (d.podcastId = e.podcastId) && decide (d.userId = e.userId)) = [] := by
        rw [List.filter_eq_nil_iff]
        intro x hx hmatch
        apply h.1
        simp only [Bool.and_eq_true, decide_eq_true_eq] at hmatch
        exact List.mem_map.2 ⟨x, hx, by rw [hmatch.1, hmatch.2]⟩
      simp [List.filter_cons, hrest]
    · have hne : ¬ (d.podcastId = e.podcastId ∧ d.userId = e.userId) := by
        intro hmatch
        apply h.1
        exact List.mem_map.2 ⟨e, hin, by rw [hmatch.1, hmatch.2]⟩
      have hd : (decide (d.podcastId = e.podcastId) && decide (d.userId = e.userId)) = false := by
        simpa using hne
      rw [List.filter_cons, hd]
      exact ih h.2 hin

theorem handleRating_resubmit_eq (st : AppState) (fs : Firestore) (env : CallEnv)
    (id : String) (v : Int) (type : String) (u : String) (e : RatingDoc)
    (ha : authenticated st = some u) (hr : env.readOk = true) (hw : env.writeOk = true)
    (hpairs : (pairKeys fs.ratings).Nodup)
    (he : e ∈ fs.ratings) (hep : e.podcastId = id) (heu : e.userId = u) :
    handleRating st fs env id v type =
      (st, { fs with ratings := updateRating fs.ratings e.id v }) := by
  have hq : (queryRatings fs.ratings id u).head? = some e := by
    rw [← hep, ← heu, queryRatings_eq_singleton fs.ratings e hpairs he]
    rfl
  unfold handleRating
  rw [ha]
  simp [hr, hw, hq]

theorem handleRating_resolved (st : AppState) (fs : Firestore) (env : CallEnv)
    (id : String) (v : Int) (type : String) (u : String)
    (ha : authenticated st = some u) (hr : env.readOk = true) (hw : env.writeOk = true) :
    handleRating st fs env id v type =
      match (queryRatings fs.ratings id u).head? with
      | some e => (st, { fs with ratings := updateRating fs.ratings e.id v })
      | none => (st, { fs with ratings := fs.ratings ++ [newRatingData env id u v] }) := by
  unfold handleRating
  rw [ha]
  simp [hr, hw]

/-- On the collection holding one rating of `A` by `u1`, a resubmission by `u1`
leaves the number of documents of `A` unchanged and the pairs distinct. -/
theorem handleRating_one_record_per_pair_witness :
    (pairKeys oneRating.ratings).Nodup ∧
    recordCount (handleRating signedIn oneRating liveEnv "A" 5 "podcast").2.ratings "A" =
      recordCount oneRating.ratings "A" ∧
    (pairKeys (handleRating signedIn oneRating liveEnv "A" 5 "podcast").2.ratings).Nodup :=
  ⟨by decide,
   ((handleRating_one_record_per_pair signedIn oneRating liveEnv "A" 5 "podcast"
      (by decide)).1 ⟨"u1", rfl, ⟨"d1", "A", "u1", 2, some 0⟩, by decide, rfl, rfl⟩).2.1 "A",
   (handleRating_one_record_per_pair signedIn oneRating liveEnv "A" 5 "podcast"
      (by decide)).2.2⟩

/-- C7, as stated, fails: `u1` rated podcast `A` at time 0 and resubmits at time
1000000000 ms; the stored document gets the new rating 5 but keeps the
timestamp 0, which differs from the time of the resubmission and is not
within seven days of it. -/
theorem handleRating_resubmit_timestamp_counterexample :
    (handleRating signedIn oneRating liveEnv "A" 5 "podcast").2.ratings =
      [⟨"d1", "A", "u1", 5, some 0⟩] ∧
    (some 0 : Option Int) ≠ some liveEnv.now ∧
    withinSevenDays liveEnv.now ⟨"d1", "A", "u1", 5, some 0⟩ = false := by
  decide

/-- C7, amended: when a signed-in user resubmits a rating for a podcast they have
already rated and the backend calls resolve, no error is reported, their
document carries the new rating, and every document keeps its id, podcast,
user and timestamp, so the number of recent ratings of every podcast at every
evaluation time is unchanged. -/
theorem handleRating_resubmit_overwrites_rating_only (st : AppState) (fs : Firestore)
    (env : CallEnv) (id : String) (ratingValue : Int) (type : String) (u : String)
    (e : RatingDoc)
    (ha : authenticated st = some u) (hr : env.readOk = true) (hw : env.writeOk = true)
    (hpairs : (pairKeys fs.ratings).Nodup)
    (he : e ∈ fs.ratings) (hep : e.podcastId = id) (heu : e.userId = u) :
    (handleRating st fs env id ratingValue type).1 = st ∧
    { e with rating := ratingValue } ∈ (handleRating st fs env id ratingValue type).2.ratings ∧
    (∀ d ∈ (handleRating st fs env id ratingValue type).2.ratings,
      d.podcastId = id → d.userId = u → d.rating = ratingValue) ∧
    (handleRating st fs env id ratingValue type).2.ratings.map
        (fun d => (d.id, d.podcastId, d.userId, d.timestamp)) =
      fs.ratings.map (fun d => (d.id, d.podcastId, d.userId, d.timestamp)) ∧
    (∀ (asOf : Int) (p : String),
      (handleRating st fs env id ratingValue type).2.ratings.countP
          (fun d => decide (d.podcastId = p) && withinSevenDays asOf d) =
        fs.ratings.countP (fun d => decide (d.podcastId = p) && withinSevenDays asOf d)) := by
  rw [handleRating_resubmit_eq st fs env id ratingValue type u e ha hr hw hpairs he hep heu]
  refine ⟨rfl, ?_, ?_, ?_, ?_⟩
  · simp only [updateRating]
    exact List.mem_map.2 ⟨e, he, by simp⟩
  · intro d hd hdp hdu
    simp only [updateRating] at hd
    obtain ⟨d0, hd0, rfl⟩ := List.mem_map.1 hd
    by_cases hid : d0.id = e.id
    · simp [hid]
    · simp only [hid, if_false] at hdp hdu
      have h1 := queryRatings_eq_singleton fs.ratings e hpairs he
      have hmem : d0 ∈ queryRatings fs.ratings e.podcastId e.userId := by
        unfold queryRatings
        rw [List.mem_filter]
        exact ⟨hd0, by simp [hdp, hdu, hep, heu]⟩
      rw [h1, List.mem_singleton] at hmem
      exact absurd (by rw [hmem]) hid
  · simp only [updateRating, List.map_map]
    apply List.map_congr_left
    intro d _
    by_cases hid : d.id = e.id <;> simp [hid]
  · intro asOf p
    simp only [updateRating, List.countP_map]
    apply List.countP_congr
    intro d _
    by_cases hid : d.id = e.id <;> simp [hid, withinSevenDays]

/-- When `u1` resubmits a rating of podcast `A`, the document keeps its id,
podcast, user and the timestamp 0. -/
theorem handleRating_resubmit_overwrites_rating_only_witness :
    authenticated signedIn = some "u1" ∧
    (⟨"d1", "A", "u1", 2, some 0⟩ : RatingDoc) ∈ oneRating.ratings ∧
    (handleRating signedIn oneRating liveEnv "A" 5 "podcast").2.ratings.map
        (fun d => (d.id, d.podcastId, d.userId, d.timestamp)) =
      oneRating.ratings.map (fun d => (d.id, d.podcastId, d.userId, d.timestamp)) :=
  ⟨by decide, by decide,
   (handleRating_resubmit_overwrites_rating_only signedIn oneRating liveEnv "A" 5 "podcast"
      "u1" ⟨"d1", "A", "u1", 2, some 0⟩ (by decide) rfl rfl (by decide) (by decide)
      rfl rfl).2.2.2.1⟩

/-- C8, as stated, fails: the score 7 is not in [1,5], yet submitting it as `u1`
on an empty collection reports no error and stores a document with rating 7. -/
theorem handleRating_invalid_score_counterexample :
    ¬ ((1 : Int) ≤ 7 ∧ (7 : Int) ≤ 5) ∧
    handleRating signedIn emptyStore liveEnv "A" 7 "podcast" =
      (signedIn, { ratings := [⟨"d9", "A", "u1", 7, some 1000000000⟩], reviews := [] }) ∧
    signedIn.error = none := by
  decide

/-- C8, amended: the rating submission validates no score: for every score,
with a signed-in user and the backend calls resolving, the state (its error
field included) is unchanged and the collection afterwards holds the user's
document for the podcast with that score; the star widget submits only the
integers 1 to 5. -/
theorem handleRating_stores_any_score (st : AppState) (fs : Firestore) (env : CallEnv)
    (id : String) (ratingValue : Int) (type : String) (u : String)
    (ha : authenticated st = some u) (hr : env.readOk = true) (hw : env.writeOk = true) :
    (handleRating st fs env id ratingValue type).1 = st ∧
    (∃ d ∈ (handleRating st fs env id ratingValue type).2.ratings,
      d.podcastId = id ∧ d.userId = u ∧ d.rating = ratingValue) ∧
    (∀ i ∈ starValues, 1 ≤ i ∧ i ≤ 5) := by
  rw [handleRating_resolved st fs env id ratingValue type u ha hr hw]
  cases hq : (queryRatings fs.ratings id u).head? with
  | none =>
    exact ⟨rfl, ⟨newRatingData env id u ratingValue, by simp, rfl, rfl, rfl⟩, by decide⟩
  | some e =>
    obtain ⟨hmem, hp, hu⟩ := queryRatings_head_some _ _ _ _ hq
    refine ⟨rfl, ⟨{ e with rating := ratingValue }, ?_, hp, hu, rfl⟩, by decide⟩
    simp only [updateRating]
    exact List.mem_map.2 ⟨e, hmem, by simp⟩

/-- Submitted by `u1` on the empty collection, the score 7 is stored and no
error is reported. -/
theorem handleRating_stores_any_score_witness :
    authenticated signedIn = some "u1" ∧
    (handleRating signedIn emptyStore liveEnv "A" 7 "podcast").1 = signedIn ∧
    ∃ d ∈ (handleRating signedIn emptyStore liveEnv "A" 7 "podcast").2.ratings,
      d.podcastId = "A" ∧ d.userId = "u1" ∧ d.rating = 7 :=
  ⟨by decide,
   (handleRating_stores_any_score signedIn emptyStore liveEnv "A" 7 "podcast" "u1"
      (by decide) rfl rfl).1,
   (handleRating_stores_any_score signedIn emptyStore liveEnv "A" 7 "podcast" "u1"
      (by decide) rfl rfl).2.1⟩

/-- C9: with a database handle set and the write resolving, a review
submission appends exactly one new review document, leaving every earlier
document in place, when a caller identity is present and the text is non-empty
after trimming; otherwise it reports an error ("You must be authenticated to
submit a review." without an identity, "Review cannot be empty." for blank
text such as three spaces) and both collections are unchanged. -/
theorem handleReviewSubmit_appends_iff_valid (st : AppState) (fs : Firestore) (env : CallEnv)
    (podcastId reviewText : String) (hdb : st.db = true) (hw : env.writeOk = true) :
    (∀ u, st.userId = some u → u ≠ "" → jsTrim reviewText ≠ "" →
      (handleReviewSubmit st fs env podcastId reviewText).2.reviews =
        fs.reviews ++ [⟨env.newDocId, podcastId, u, reviewText, env.now⟩] ∧
      (handleReviewSubmit st fs env podcastId reviewText).2.ratings = fs.ratings ∧
      (handleReviewSubmit st fs env podcastId reviewText).1.error = st.error) ∧
    ((st.userId = none ∨ st.userId = some "") →
      (handleReviewSubmit st fs env podcastId reviewText).2 = fs ∧
      (handleReviewSubmit st fs env podcastId reviewText).1.error =
        some "You must be authenticated to submit a review.") ∧
    (∀ u, st.userId = some u → u ≠ "" → jsTrim reviewText = "" →
      (handleReviewSubmit st fs env podcastId reviewText).2 = fs ∧
      (handleReviewSubmit st fs env podcastId reviewText).1.error =
        some "Review cannot be empty.") ∧
    jsTrim "   " = "" := by
  refine ⟨?_, ?_, ?_, by decide⟩
  · intro u hu hne htext
    have ha : authenticated st = some u := by
      unfold authenticated
      rw [hu]
      simp [hne, hdb]
    unfold handleReviewSubmit
    rw [ha]
    simp [htext, hw]
  · intro hu
    have ha : authenticated st = none := by
      unfold authenticated
      rcases hu with hu | hu <;> simp [hu]
    unfold handleReviewSubmit
    rw [ha]
    exact ⟨rfl, rfl⟩
  · intro u hu hne htext
    have ha : authenticated st = some u := by
      unfold authenticated
      rw [hu]
      simp [hne, hdb]
    unfold handleReviewSubmit
    rw [ha]
    simp [htext]

/-- The review " hi " submitted by `u1` is appended to the empty collection; the
blank review of three spaces leaves it empty. -/
theorem handleReviewSubmit_appends_iff_valid_witness :
    signedIn.db = true ∧ liveEnv.writeOk = true ∧
    (handleReviewSubmit signedIn emptyStore liveEnv "A" " hi ").2.reviews =
      emptyStore.reviews ++ [⟨"d9", "A", "u1", " hi ", 1000000000⟩] ∧
    (handleReviewSubmit signedIn emptyStore liveEnv "A" "   ").2 = emptyStore :=
  ⟨rfl, rfl,
   ((handleReviewSubmit_appends_iff_valid signedIn emptyStore liveEnv "A" " hi " rfl rfl).1
      "u1" rfl (by decide) (by decide)).1,
   ((handleReviewSubmit_appends_iff_valid signedIn emptyStore liveEnv "A" "   " rfl rfl).2.2.1
      "u1" rfl (by decide) (by decide)).1⟩

theorem fetchTargets_eq_take_min (ranking : List PodcastRating) :
    fetchTargets ranking = (rankingIds ranking).take (min ranking.length 100) ∧
    (fetchTargets ranking).length = min ranking.length 100 ∧
    (fetchTargets ranking).length ≤ 100 ∧
    fetchTargets ranking <+: rankingIds ranking ∧
    (ranking.length ≤ 100 → fetchTargets ranking = rankingIds ranking) := by
  have h0 : fetchTargets ranking = (rankingIds ranking).take 100 := by
    unfold fetchTargets rankingIds
    by_cases hlen : ranking.length > 0
    · rw [if_pos hlen, List.map_take]
    · have hnil : ranking = [] := List.length_eq_zero.1 (by omega)
      subst hnil
      rfl
  have hl : (rankingIds ranking).length = ranking.length := by simp [rankingIds]
  refine ⟨?_, ?_, ?_, ?_, ?_⟩
  · rw [h0]
    by_cases hle : ranking.length ≤ 100
    · rw [min_eq_left hle, List.take_of_length_le (by omega), List.take_of_length_le (by omega)]
    · rw [min_eq_right (by omega)]
  · rw [h0, List.length_take, hl, min_comm]
  · rw [h0, List.length_take]
    exact min_le_left _ _
  · rw [h0]
    exact List.take_prefix _ _
  · intro hle
    rw [h0, List.take_of_length_le (by omega)]

theorem filter_orderedInsert {α : Type} (r : α → α → Prop) [DecidableRel r] [IsTrans α r]
    (P : α → Bool) (a : α) (s : List α) (hs : s.Sorted r) :
    (s.orderedInsert r a).filter P =
      if P a = true then (s.filter P).orderedInsert r a else s.filter P := by
  induction s with
  | nil =>
    by_cases hP : P a = true <;> simp [hP]
  | cons b t ih =>
    have hbt : ∀ x ∈ t, r b x := List.rel_of_sorted_cons hs
    have ht : t.Sorted r := hs.of_cons
    by_cases hab : r a b
    · rw [List.orderedInsert_of_le r t hab]
      by_cases hP : P a = true
      · rw [if_pos hP, List.filter_cons_of_pos hP]
        have hall : ∀ x ∈ (b :: t).filter P, r a x := by
          intro x hx
          have hx' : x ∈ b :: t := (List.mem_filter.1 hx).1
          rcases List.mem_cons.1 hx' with rfl | hxt
          · exact hab
          · exact IsTrans.trans a b x hab (hbt x hxt)
        cases hf : (b :: t).filter P with
        | nil => rfl
        | cons c u =>
          have hc : r a c := hall c (by rw [hf]; exact List.mem_cons_self _ _)
          rw [List.orderedInsert_of_le r u hc]
      · rw [if_neg hP, List.filter_cons_of_neg hP]
    · have hins : (b :: t).orderedInsert r a = b :: t.orderedInsert r a := by
        simp [List.orderedInsert, hab]
      rw [hins]
      by_cases hPb : P b = true
      · rw [List.filter_cons_of_pos hPb, List.filter_cons_of_pos hPb, ih ht]
        by_cases hP : P a = true
        · simp [hP, List.orderedInsert, hab]
        · simp [hP]
      · rw [List.filter_cons_of_neg hPb, List.filter_cons_of_neg hPb, ih ht]

theorem filter_insertionSort {α : Type} (r : α → α → Prop) [DecidableRel r] [IsTrans α r]
    [IsTotal α r] (P : α → Bool) (l : List α) :
    (l.insertionSort r).filter P = (l.filter P).insertionSort r := by
  induction l with
  | nil => rfl
  | cons a l ih =>
    rw [List.insertionSort, filter_orderedInsert r P a _ (List.sorted_insertionSort r l), ih]
    by_cases hP : P a = true
    · rw [if_pos hP, List.filter_cons_of_pos hP, List.insertionSort]
    · rw [if_neg hP, List.filter_cons_of_neg hP]

theorem jsSort_filter {α : Type} (cmp : α → α → ℚ) [IsTrans α (cmpLE cmp)]
    [IsTotal α (cmpLE cmp)] (P : α → Bool) (l : List α) :
    (jsSort cmp l).filter P = jsSort cmp (l.filter P) :=
  filter_insertionSort (cmpLE cmp) P l

theorem jsSort_of_ties {α : Type} (cmp : α → α → ℚ) (l : List α)
    (h : ∀ a ∈ l, ∀ b ∈ l, cmp a b ≤ 0) : jsSort cmp l = l :=
  List.Sorted.insertionSort_eq (List.pairwise_of_forall_mem_list h)

theorem objectEntries_of_no_index (m : RatingsMap)
    (h : ∀ kv ∈ m, arrayIndex kv.1 = none) : objectEntries m = m := by
  have h1 : m.filter isIndexKey = [] := by
    rw [List.filter_eq_nil_iff]
    intro kv hkv
    simp [isIndexKey, h kv hkv]
  have h2 : m.filter (fun kv => !isIndexKey kv) = m := by
    rw [List.filter_eq_self]
    intro kv hkv
    simp [isIndexKey, h kv hkv]
  unfold objectEntries
  rw [h1, h2]
  rfl

/-- C14: for every aggregate object, the hidden-gems ranking is the top-rated
ranking of the same object with the rows failing the hidden-gems test removed
(filtering before the stable sort equals filtering after it); so it is a
sublist of the top-rated ranking: every hidden gem is in the top-rated ranking
and hidden gems keep their relative order. -/
theorem hiddenGems_sublist_topRated (ratings : RatingsMap) (now : Int) :
    filteredPodcastIds "hidden-gems" ratings now =
      (filteredPodcastIds "top-rated" ratings now).filter isHiddenGem ∧
    List.Sublist (filteredPodcastIds "hidden-gems" ratings now)
      (filteredPodcastIds "top-rated" ratings now) ∧
    List.Sublist (rankingIds (filteredPodcastIds "hidden-gems" ratings now))
      (rankingIds (filteredPodcastIds "top-rated" ratings now)) ∧
    (∀ s ∈ rankingIds (filteredPodcastIds "hidden-gems" ratings now),
      s ∈ rankingIds (filteredPodcastIds "top-rated" ratings now)) := by
  have heq : filteredPodcastIds "hidden-gems" ratings now =
      (filteredPodcastIds "top-rated" ratings now).filter isHiddenGem := by
    rw [filteredPodcastIds_hiddenGems, filteredPodcastIds_topRated, jsSort_filter,
      List.filter_filter]
    congr 1
    apply List.filter_congr
    intro p _
    by_cases hc : p.count > 0 <;> simp [isHiddenGem, hc]
  have hsub : List.Sublist (filteredPodcastIds "hidden-gems" ratings now)
      (filteredPodcastIds "top-rated" ratings now) := by
    rw [heq]
    exact List.filter_sublist _
  have hids : List.Sublist (rankingIds (filteredPodcastIds "hidden-gems" ratings now))
      (rankingIds (filteredPodcastIds "top-rated" ratings now)) := hsub.map _
  exact ⟨heq, hsub, hids, fun s hs => hids.subset hs⟩

/-- C11, amended: in the top-rated ranking, podcasts with equal mean stand in the
order in which `Object.entries` lists them, whatever their counts and ids; for
an object without array-index keys that is the order in which the keys were
created. -/
theorem topRated_ties_keep_entries_order (ratings : RatingsMap) (now : Int) :
    (∀ m : ℚ,
      (filteredPodcastIds "top-rated" ratings now).filter (fun p => decide (p.average = m)) =
        ((allPodcastRatings ratings now).filter (fun p => decide (p.count > 0))).filter
          (fun p => decide (p.average = m))) ∧
    ((∀ kv ∈ ratings, arrayIndex kv.1 = none) →
      allPodcastRatings ratings now = ratings.map (toPodcastRating now)) := by
  refine ⟨?_, ?_⟩
  · intro m
    rw [filteredPodcastIds_topRated, jsSort_filter]
    apply jsSort_of_ties
    intro a ha b hb
    have ha' : a.average = m := by simpa using (List.mem_filter.1 ha).2
    have hb' : b.average = m := by simpa using (List.mem_filter.1 hb).2
    simp [byAverageDesc, ha', hb']
  · intro h
    unfold allPodcastRatings
    rw [objectEntries_of_no_index ratings h]

/-- C11, as stated, fails: `A` (one rating 4) and `B` (two ratings 4) have the same
mean, yet `A`, with the lower count, stands first when its rating comes first
in the snapshot; with the same documents delivered with those of `B` first
the object holds the same entries in the opposite order and the ranking is
`[B, A]`, so neither count nor id breaks the tie and the output depends on the
insertion order. -/
theorem topRated_tie_break_counterexample :
    rankingIds (filteredPodcastIds "top-rated" (ratingsListener "u1" tieSnapshot) 0) =
      ["A", "B"] ∧
    averageRating (ratingsListener "u1" tieSnapshot) "A" =
      averageRating (ratingsListener "u1" tieSnapshot) "B" ∧
    (getProp (ratingsListener "u1" tieSnapshot) "A").map Aggregate.count = some 1 ∧
    (getProp (ratingsListener "u1" tieSnapshot) "B").map Aggregate.count = some 2 ∧
    ratingsListener "u1" tieSnapshotSwapped = (ratingsListener "u1" tieSnapshot).reverse ∧
    rankingIds (filteredPodcastIds "top-rated" (ratingsListener "u1" tieSnapshotSwapped) 0) =
      ["B", "A"] := by
  have h1 : ratingsListener "u1" tieSnapshot =
      [("A", ⟨4, 1, true, 0, [⟨4, some 0⟩]⟩),
       ("B", ⟨8, 2, true, 0, [⟨4, some 0⟩, ⟨4, some 0⟩]⟩)] := by decide
  have h2 : ratingsListener "u1" tieSnapshotSwapped =
      [("B", ⟨8, 2, true, 0, [⟨4, some 0⟩, ⟨4, some 0⟩]⟩),
       ("A", ⟨4, 1, true, 0, [⟨4, some 0⟩]⟩)] := by decide
  have e1 : objectEntries (ratingsListener "u1" tieSnapshot) =
      ratingsListener "u1" tieSnapshot := by decide
  have e2 : objectEntries (ratingsListener "u1" tieSnapshotSwapped) =
      ratingsListener "u1" tieSnapshotSwapped := by decide
  refine ⟨?_, ?_, by decide, by decide, by decide, ?_⟩
  · rw [filteredPodcastIds_topRated]
    unfold allPodcastRatings
    rw [e1, h1]
    norm_num [toPodcastRating, jsSort, List.insertionSort, List.orderedInsert, cmpLE,
      byAverageDesc, rankingIds]
  · have hA : getProp (ratingsListener "u1" tieSnapshot) "A" =
        some ⟨4, 1, true, 0, [⟨4, some 0⟩]⟩ := by decide
    have hB : getProp (ratingsListener "u1" tieSnapshot) "B" =
        some ⟨8, 2, true, 0, [⟨4, some 0⟩, ⟨4, some 0⟩]⟩ := by decide
    unfold averageRating
    rw [hA, hB]
    norm_num
  · rw [filteredPodcastIds_topRated]
    unfold allPodcastRatings
    rw [e2, h2]
    norm_num [toPodcastRating, jsSort, List.insertionSort, List.orderedInsert, cmpLE,
      byAverageDesc, rankingIds]

theorem promiseAll_map_some {α β : Type} (g : α → β) (l : List α) :
    promiseAll (l.map (fun x => some (g x))) = some (l.map g) := by
  induction l with
  | nil => rfl
  | cons x rest ih => simp [promiseAll, ih]

theorem fetchPodcastById_resolved (cat : Catalog) (id : String)
    (h : cat.podcast id ≠ FetchOutcome.rejected) :
    fetchPodcastById cat id = some (successData cat id) := by
  unfold fetchPodcastById successData
  cases hc : cat.podcast id with
  | ok data => rfl
  | notOk => rfl
  | rejected => exact absurd hc h

theorem loadPodcastsData_resolved (cat : Catalog) (ranking : List PodcastRating)
    (hne : ranking ≠ [])
    (hres : ∀ id ∈ fetchTargets ranking, cat.podcast id ≠ FetchOutcome.rejected) :
    loadPodcastsData cat ranking = some ((fetchTargets ranking).map (successData cat)) := by
  have hlen : ranking.length > 0 := List.length_pos.2 hne
  have hft : fetchTargets ranking = (ranking.take 100).map PodcastRating.podcastId := by
    unfold fetchTargets rankingIds
    rw [if_pos hlen]
  unfold loadPodcastsData
  rw [if_pos hlen]
  have hmap : (ranking.take 100).map (fun p => fetchPodcastById cat p.podcastId) =
      (fetchTargets ranking).map (fun id => some (successData cat id)) := by
    rw [hft, List.map_map]
    apply List.map_congr_left
    intro p hp
    apply fetchPodcastById_resolved
    apply hres
    rw [hft]
    exact List.mem_map.2 ⟨p, hp, rfl⟩
  rw [hmap, promiseAll_map_some]

theorem filterMap_map_id {α β : Type} (g : α → Option β) (l : List α) :
    (l.map g).filterMap (fun p => p) = l.filterMap g := by
  induction l with
  | nil => rfl
  | cons x rest ih =>
    cases hg : g x <;> simp [List.filterMap_cons, hg, ih]

/-- C12, as stated, fails: with the language filter set to Spanish the successfully
fetched English podcast `A` is left out of the resulting list (and the empty
result is reported as an error), and for an empty ranking, where no id is
fetched, the list holds the `just_listen` podcast. -/
theorem showRanking_exact_data_counterexample :
    (fetchTargets rankingAB).filterMap (successData catalogA) = [⟨"A", none, "en"⟩] ∧
    (showRanking spanishSelected catalogA "top-rated" rankingAB).podcasts = [] ∧
    (showRanking spanishSelected catalogA "top-rated" rankingAB).error =
      some "No top rated podcasts found with the selected filters." ∧
    fetchTargets [] = [] ∧
    (showRanking signedIn catalogFallback "top-rated" []).podcasts = [⟨"R", none, "en"⟩] := by
  decide

/-- C12, amended: for every non-empty ranking and every catalog in which each
request for a capped id resolves (with data, or with an error status), the
batch does not fail as a whole: the resulting podcast list is the data of the
successfully fetched ids that pass the selected category and language
filters, in ranking order, each failed id omitted; the only error reported is
the empty-result message, exactly when that list is empty. -/
theorem showRanking_drops_failed_ids (st : AppState) (cat : Catalog) (sect : String)
    (ranking : List PodcastRating) (hne : ranking ≠ [])
    (hres : ∀ id ∈ fetchTargets ranking, cat.podcast id ≠ FetchOutcome.rejected) :
    (showRanking st cat sect ranking).podcasts =
      ((fetchTargets ranking).filterMap (successData cat)).filter
        (matchesFilters st.selectedCategory st.selectedLanguage) ∧
    (showRanking st cat sect ranking).error =
      (if (showRanking st cat sect ranking).podcasts.length = 0 then
        some (noneFoundMessage sect) else none) ∧
    (showRanking st cat sect ranking).error ≠
      some "Failed to fetch podcasts. Please check your network connection." ∧
    (showRanking st cat sect ranking).loading = false := by
  have hshow : showRanking st cat sect ranking =
      { st with
        podcasts := ((fetchTargets ranking).filterMap (successData cat)).filter
          (matchesFilters st.selectedCategory st.selectedLanguage)
        error := if (((fetchTargets ranking).filterMap (successData cat)).filter
            (matchesFilters st.selectedCategory st.selectedLanguage)).length = 0
          then some (noneFoundMessage sect) else none
        loading := false } := by
    unfold showRanking
    rw [loadPodcastsData_resolved cat ranking hne hres]
    simp only [filterMap_map_id]
  rw [hshow]
  refine ⟨rfl, rfl, ?_, rfl⟩
  dsimp only
  split
  · intro h
    have hd := congrArg String.data (Option.some.inj h)
    simp [noneFoundMessage, String.data_append] at hd
  · simp

/-- With `A` found and `B` answered by an error status, the resulting list is
the data of `A`. -/
theorem showRanking_drops_failed_ids_witness :
    rankingAB ≠ [] ∧
    (∀ id ∈ fetchTargets rankingAB, catalogA.podcast id ≠ FetchOutcome.rejected) ∧
    (showRanking signedIn catalogA "top-rated" rankingAB).podcasts = [⟨"A", none, "en"⟩] :=
  ⟨by decide,
   fun id _ => by unfold catalogA; by_cases h : id = "A" <;> simp [h],
   (showRanking_drops_failed_ids signedIn catalogA "top-rated" rankingAB (by decide)
      (fun id _ => by unfold catalogA; by_cases h : id = "A" <;> simp [h])).1.trans
     (by decide)⟩

/-- C13: when the ratings feed reports an error, the render that follows does
not run the content effect again (no dependency changed), so the state
afterwards is the state before with only `error` replaced: the aggregate
object `ratings` and the displayed list `podcasts` are as they were. -/
theorem onSnapshotError_changes_only_error (w : World) (st : AppState) :
    onSnapshotError w st =
      { st with error := some "Failed to fetch ratings from the database." } ∧
    (onSnapshotError w st).ratings = st.ratings ∧
    (onSnapshotError w st).podcasts = st.podcasts ∧
    (onSnapshotError w st).error = some "Failed to fetch ratings from the database." := by
  have h : onSnapshotError w st =
      { st with error := some "Failed to fetch ratings from the database." } := by
    have hdeps : effectDeps
        { st with error := some "Failed to fetch ratings from the database." } =
        effectDeps st := rfl
    unfold onSnapshotError rerender
    rw [if_pos hdeps]
  rw [h]
  exact ⟨rfl, rfl, rfl, rfl⟩

theorem ratings_sum_bounds (rs : List RatingDoc)
    (h : ∀ d ∈ rs, 1 ≤ d.rating ∧ d.rating ≤ 5) :
    (rs.length : Int) ≤ (rs.map RatingDoc.rating).sum ∧
    (rs.map RatingDoc.rating).sum ≤ 5 * (rs.length : Int) := by
  induction rs with
  | nil => simp
  | cons d rest ih =>
    have hd := h d (List.mem_cons_self _ _)
    have hr := ih (fun x hx => h x (List.mem_cons_of_mem _ hx))
    simp only [List.map_cons, List.sum_cons, List.length_cons, Nat.cast_add, Nat.cast_one]
    constructor <;> omega

theorem renderStars_no_entry (ratings : RatingsMap) (id : String)
    (h : getProp ratings id = none) :
    averageRating ratings id = 0 ∧
    renderStars ratings id =
      [StarClass.gray, StarClass.gray, StarClass.gray, StarClass.gray, StarClass.gray] := by
  have ha : averageRating ratings id = 0 := by
    unfold averageRating
    rw [h]
  have hf : fullStars ratings id = 0 := by
    unfold fullStars
    rw [ha]
    exact Int.floor_zero
  have hh : hasHalfStar ratings id = false := by
    unfold hasHalfStar
    rw [ha, hf]
    norm_num
  refine ⟨ha, ?_⟩
  simp [renderStars, starValues, starClass, hf, hh]

/-- C15: for every snapshot whose ratings all lie in [1,5] and every podcast with
an entry in the object the listener builds, `count ≥ 1` and
`count ≤ totalRating ≤ 5 * count`, so the mean `totalRating / count` lies in
[1,5], the number of full stars `floor(mean)` is between 1 and 5, and a half
star, when there is one, is drawn at position `fullStars + 1 ≤ 5`; for a
podcast without an entry the mean shown is 0 and all five stars are grey. -/
theorem renderStars_bounds (uid : String) (snapshot : List RatingDoc) (s : String)
    (h : ∀ d ∈ snapshot, 1 ≤ d.rating ∧ d.rating ≤ 5) :
    (∀ a, getProp (ratingsListener uid snapshot) s = some a →
      1 ≤ a.count ∧ (a.count : Int) ≤ a.totalRating ∧ a.totalRating ≤ 5 * (a.count : Int) ∧
      averageRating (ratingsListener uid snapshot) s =
        (a.totalRating : ℚ) / (a.count : ℚ) ∧
      1 ≤ averageRating (ratingsListener uid snapshot) s ∧
      averageRating (ratingsListener uid snapshot) s ≤ 5 ∧
      1 ≤ fullStars (ratingsListener uid snapshot) s ∧
      fullStars (ratingsListener uid snapshot) s ≤ 5 ∧
      (hasHalfStar (ratingsListener uid snapshot) s = true →
        fullStars (ratingsListener uid snapshot) s + 1 ≤ 5 ∧
        starClass (ratingsListener uid snapshot) s
          (fullStars (ratingsListener uid snapshot) s + 1) = StarClass.halfGold)) ∧
    (renderStars (ratingsListener uid snapshot) s).length = 5 ∧
    (∀ (ratings : RatingsMap) (id : String), getProp ratings id = none →
      averageRating ratings id = 0 ∧
      renderStars ratings id =
        [StarClass.gray, StarClass.gray, StarClass.gray, StarClass.gray, StarClass.gray]) := by
  refine ⟨?_, by simp [renderStars, starValues], renderStars_no_entry⟩
  intro a ha
  have hg := ha
  rw [getProp_ratingsListener] at hg
  by_cases he : recordsOf snapshot s = []
  · simp [he] at hg
  · simp only [he, if_false, Option.some.injEq] at hg
    have hb := ratings_sum_bounds (recordsOf snapshot s)
      (fun d hd => h d (List.mem_filter.1 hd).1)
    have hlen : 1 ≤ (recordsOf snapshot s).length :=
      Nat.succ_le_of_lt (List.length_pos.2 he)
    have hcount : a.count = (recordsOf snapshot s).length := by rw [← hg]; rfl
    have htotal : a.totalRating = ((recordsOf snapshot s).map RatingDoc.rating).sum := by
      rw [← hg]; rfl
    have h1 : 1 ≤ a.count := by rw [hcount]; exact hlen
    have h2 : (a.count : Int) ≤ a.totalRating := by rw [hcount, htotal]; exact hb.1
    have h3 : a.totalRating ≤ 5 * (a.count : Int) := by rw [hcount, htotal]; exact hb.2
    have havg : averageRating (ratingsListener uid snapshot) s =
        (a.totalRating : ℚ) / (a.count : ℚ) := by
      unfold averageRating
      rw [ha]
    have hpos : (0 : ℚ) < (a.count : ℚ) := by exact_mod_cast h1
    have h2q : (a.count : ℚ) ≤ (a.totalRating : ℚ) := by exact_mod_cast h2
    have h3q : (a.totalRating : ℚ) ≤ 5 * (a.count : ℚ) := by exact_mod_cast h3
    have hlo : 1 ≤ averageRating (ratingsListener uid snapshot) s := by
      rw [havg, one_le_div₀ hpos]
      exact h2q
    have hhi : averageRating (ratingsListener uid snapshot) s ≤ 5 := by
      rw [havg, div_le_iff₀ hpos]
      exact h3q
    have hflo : 1 ≤ fullStars (ratingsListener uid snapshot) s := by
      unfold fullStars
      rw [Int.le_floor]
      exact_mod_cast hlo
    have hfhi : fullStars (ratingsListener uid snapshot) s ≤ 5 := by
      unfold fullStars
      have hfl := Int.floor_le (averageRating (ratingsListener uid snapshot) s)
      have : ((Int.floor (averageRating (ratingsListener uid snapshot) s) : Int) : ℚ) ≤ 5 :=
        le_trans hfl hhi
      exact_mod_cast this
    refine ⟨h1, h2, h3, havg, hlo, hhi, hflo, hfhi, ?_⟩
    intro hhalf
    have hlt : fullStars (ratingsListener uid snapshot) s + 1 ≤ 5 := by
      by_contra hcon
      have h5 : fullStars (ratingsListener uid snapshot) s = 5 := by omega
      unfold hasHalfStar at hhalf
      rw [h5] at hhalf
      have hge : averageRating (ratingsListener uid snapshot) s - ((5 : Int) : ℚ) ≥ 0.5 := by
        simpa using hhalf
      norm_num at hge
      linarith
    refine ⟨hlt, ?_⟩
    unfold starClass
    rw [if_neg (by omega), if_pos ⟨hhalf, rfl⟩]

/-- On the scenario records every rating lies in [1,5]; podcast `A` has an entry
with count 2 and total 9. -/
theorem renderStars_bounds_witness :
    (∀ d ∈ scenarioSnapshot, 1 ≤ d.rating ∧ d.rating ≤ 5) ∧
    getProp (ratingsListener "u1" scenarioSnapshot) "A" =
      some ⟨9, 2, true, 0, [⟨5, some 0⟩, ⟨4, some 0⟩]⟩ ∧
    1 ≤ fullStars (ratingsListener "u1" scenarioSnapshot) "A" ∧
    fullStars (ratingsListener "u1" scenarioSnapshot) "A" ≤ 5 :=
  ⟨by decide, by decide,
   ((renderStars_bounds "u1" scenarioSnapshot "A" (by decide)).1
      ⟨9, 2, true, 0, [⟨5, some 0⟩, ⟨4, some 0⟩]⟩ (by decide)).2.2.2.2.2.2.1,
   ((renderStars_bounds "u1" scenarioSnapshot "A" (by decide)).1
      ⟨9, 2, true, 0, [⟨5, some 0⟩, ⟨4, some 0⟩]⟩ (by decide)).2.2.2.2.2.2.2.1⟩

theorem promiseAll_length {α : Type} (l : List (Option α)) (r : List α)
    (h : promiseAll l = some r) : r.length = l.length := by
  induction l generalizing r with
  | nil =>
    simp only [promiseAll, Option.some.injEq] at h
    subst h
    rfl
  | cons x rest ih =>
    cases x with
    | none => simp [promiseAll] at h
    | some a =>
      simp only [promiseAll, Option.map_eq_some'] at h
      obtain ⟨r', hr', rfl⟩ := h
      simp [ih r' hr']

/-- C10: for every ranking of length `n`, the per-podcast requests
`fetchHomepageContent` issues are those for the first `min n 100` ids of the
ranking, in ranking order (one result per such id, none for an empty ranking,
which only asks `just_listen`): at most 100 ids, a prefix of the ranking, and
the whole ranking when `n ≤ 100`; so the displayed list never exceeds 100
podcasts. -/
theorem loadPodcastsData_requests_capped (cat : Catalog) (ranking : List PodcastRating) :
    (ranking ≠ [] →
      loadPodcastsData cat ranking =
        promiseAll (((rankingIds ranking).take (min ranking.length 100)).map
          (fetchPodcastById cat))) ∧
    (∀ podcastsData, ranking ≠ [] → loadPodcastsData cat ranking = some podcastsData →
      podcastsData.length = min ranking.length 100) ∧
    (∀ other : Catalog, other.justListen = cat.justListen →
      loadPodcastsData other [] = loadPodcastsData cat []) ∧
    fetchTargets ranking = (rankingIds ranking).take (min ranking.length 100) ∧
    ((rankingIds ranking).take (min ranking.length 100)).length = min ranking.length 100 ∧
    min ranking.length 100 ≤ 100 ∧
    (rankingIds ranking).take (min ranking.length 100) <+: rankingIds ranking ∧
    (ranking.length ≤ 100 →
      (rankingIds ranking).take (min ranking.length 100) = rankingIds ranking) ∧
    (∀ (st : AppState) (now : Int) (sect : String),
      (fetchHomepageContent st cat now sect).podcasts.length ≤ 100) := by
  have hft := fetchTargets_eq_take_min ranking
  have hcap : ∀ rk : List PodcastRating, rk ≠ [] →
      loadPodcastsData cat rk =
        promiseAll (((rankingIds rk).take (min rk.length 100)).map
          (fetchPodcastById cat)) := by
    intro rk hne
    have hlen : rk.length > 0 := List.length_pos.2 hne
    unfold loadPodcastsData
    rw [if_pos hlen, ← (fetchTargets_eq_take_min rk).1]
    unfold fetchTargets rankingIds
    rw [if_pos hlen, List.map_map]
    rfl
  have hdata : ∀ (rk : List PodcastRating) (podcastsData : List (Option Podcast)),
      loadPodcastsData cat rk = some podcastsData → podcastsData.length ≤ 100 := by
    intro rk podcastsData hload
    by_cases hne : rk = []
    · subst hne
      unfold loadPodcastsData at hload
      cases hj : cat.justListen with
      | ok data =>
        rw [hj] at hload
        simp only [List.length_nil, gt_iff_lt, lt_self_iff_false, if_false,
          Option.some.injEq] at hload
        rw [← hload]
        simp
      | notOk => rw [hj] at hload; simp at hload
      | rejected => rw [hj] at hload; simp at hload
    · rw [hcap rk hne] at hload
      have hl := promiseAll_length _ _ hload
      rw [hl, List.length_map, ← (fetchTargets_eq_take_min rk).1]
      exact (fetchTargets_eq_take_min rk).2.2.1
  refine ⟨hcap ranking, ?_, ?_, hft.1, ?_, min_le_right _ _, ?_, ?_, ?_⟩
  · intro podcastsData hne hload
    rw [hcap ranking hne] at hload
    have hl := promiseAll_length _ _ hload
    rw [hl, List.length_map, ← hft.1]
    exact hft.2.1
  · intro other hj
    unfold loadPodcastsData
    simp [hj]
  · rw [← hft.1]
    exact hft.2.1
  · rw [← hft.1]
    exact hft.2.2.2.1
  · intro hle
    rw [← hft.1]
    exact hft.2.2.2.2 hle
  · intro st now sect
    unfold fetchHomepageContent showRanking
    cases hload : loadPodcastsData cat (filteredPodcastIds sect st.ratings now) with
    | none => simp
    | some podcastsData =>
      have hlen := hdata _ podcastsData hload
      dsimp only
      calc (List.filter _ (podcastsData.filterMap (fun p => p))).length
          ≤ (podcastsData.filterMap (fun p => p)).length := List.length_filter_le _ _
        _ ≤ podcastsData.length := List.length_filterMap_le _ _
        _ ≤ 100 := hlen

/-- For a ranking of 101 rows the fetch returns 100 results: the 101st id is not
requested. -/
theorem loadPodcastsData_requests_capped_witness :
    longRanking.length = 101 ∧
    ∃ podcastsData, loadPodcastsData catalogA longRanking = some podcastsData ∧
      podcastsData.length = 100 :=
  ⟨by decide, List.replicate 100 (some ⟨"A", none, "en"⟩), by decide,
   ((loadPodcastsData_requests_capped catalogA longRanking).2.1
      (List.replicate 100 (some ⟨"A", none, "en"⟩)) (by decide) (by decide)).trans
     (by decide)⟩

end PodVibe
